import Mathlib

/-!
Verification of the orchestration core of the `vibe-agents` repository.

The Python sources are shallowly embedded: Python strings become `List Char`,
Python dicts become association lists, fallible code returns `Except`, and the
external collaborators (the Claude capability provider, the subprocess layer,
and the JSON-extraction utility applied to capability output) are passed in as
explicit oracle functions.  All definitions are executable.
-/

namespace Vibe

/-- Python `str.lower`, modelled characterwise (ASCII case mapping). -/
def pyLower (s : List Char) : List Char := s.map Char.toLower

/-- Python `sub in s` substring test (contiguous; the empty string is in everything). -/
def containsSub (sub s : List Char) : Bool := decide (sub <:+: s)

/-- Fuel-driven scanner behind `countOccs` (structural recursion on the fuel,
which starts at the length of the scanned list, an upper bound on the steps). -/
def countOccsF (sub : List Char) : Nat → List Char → Nat
  | 0, _ => 0
  | _ + 1, [] => 0
  | fuel + 1, c :: rest =>
    if sub ≠ [] ∧ sub <+: (c :: rest) then
      1 + countOccsF sub fuel (rest.drop (sub.length - 1))
    else
      countOccsF sub fuel rest

/-- Python `s.count(sub)` for a nonempty `sub`: number of non-overlapping
occurrences, scanning left to right. -/
def countOccs (sub : List Char) (s : List Char) : Nat :=
  countOccsF sub s.length s

/-- The approval marker list of `dialogue._is_approved`. -/
def approval_signals : List (List Char) :=
  ["approved".toList, "looks good".toList, "lgtm".toList,
   "no issues found".toList, "no issues detected".toList]

/-- The rejection marker list of `dialogue._is_approved`. -/
def rejection_signals : List (List Char) :=
  ["issue".toList, "bug".toList, "problem".toList, "fix".toList,
   "error".toList, "vulnerability".toList, "concern".toList]

/-- The word scanned by the standalone-APPROVED override in `_is_approved`. -/
def sApproved : List Char := "approved".toList

/-- The negated phrase scanned by the override in `_is_approved`. -/
def sNotApproved : List Char := "not approved".toList

/-- Embedding of `dialogue._is_approved`: marker scan over the lowercased
review text, with the standalone-APPROVED count tie-break override. -/
def is_approved (review_text : List Char) : Bool :=
  let lower := pyLower review_text
  let has_approval := approval_signals.any (fun s => containsSub s lower)
  let has_rejection := rejection_signals.any (fun s => containsSub s lower)
  if has_approval && !has_rejection then
    true
  else if containsSub sApproved lower &&
      decide (countOccs sNotApproved lower < countOccs sApproved lower) then
    true
  else
    false

/-- The pass marker list of `dialogue._tests_passed`. -/
def pass_signals : List (List Char) :=
  ["all tests pass".toList, "tests passed".toList, "0 failed".toList,
   "no failures".toList, "all passing".toList]

/-- The failure marker list of `dialogue._tests_passed`. -/
def fail_signals : List (List Char) :=
  ["fail".toList, "error".toList, "traceback".toList, "assertion".toList]

/-- Embedding of `dialogue._tests_passed`: pass markers with no failure marker. -/
def tests_passed (test_text : List Char) : Bool :=
  let lower := pyLower test_text
  let has_pass := pass_signals.any (fun s => containsSub s lower)
  let has_fail := fail_signals.any (fun s => containsSub s lower)
  has_pass && !has_fail

/-! ### Dialogue data model (`orchestrator/dialogue.py`) -/

/-- Embedding of `DialogueEntry`. -/
structure DialogueEntry where
  agent_name : List Char
  content : List Char
  role : List Char
deriving DecidableEq, Repr

/-- Embedding of `DialogueRound` (the `emit` callback is modelled by the event
lists threaded through the runners below). -/
structure DialogueRound where
  topic : List Char
  entries : List DialogueEntry
  max_exchanges : Nat
deriving DecidableEq, Repr

/-- Embedding of `DialogueRound.add`. -/
def DialogueRound.add (d : DialogueRound) (agent_name content role : List Char) :
    DialogueRound :=
  { d with entries := d.entries ++ [⟨agent_name, content, role⟩] }

/-- Embedding of the `DialogueRound.exchange_count` property. -/
def DialogueRound.exchange_count (d : DialogueRound) : Nat := d.entries.length

/-- Embedding of the `DialogueRound.at_limit` property. -/
def DialogueRound.at_limit (d : DialogueRound) : Bool :=
  d.max_exchanges ≤ d.exchange_count

/-- Embedding of the `DialogueRound.last_entry` property. -/
def DialogueRound.last_entry (d : DialogueRound) : Option DialogueEntry :=
  d.entries.getLast?

/-- Fixed strings appearing in `dialogue.py` (agent display names, roles,
prompts and topic prefixes).  Apostrophes are written with escapes. -/
def sCoder : List Char := "Coder".toList

/-- Reviewer display name. -/
def sReviewer : List Char := "Reviewer".toList

/-- Tester display name. -/
def sTester : List Char := "Tester".toList

/-- Debugger display name. -/
def sDebugger : List Char := "Debugger".toList

/-- Role string used for coder entries. -/
def sDeveloper : List Char := "Developer".toList

/-- Role string used for reviewer entries. -/
def sCodeReviewer : List Char := "Code Reviewer".toList

/-- Role string used for tester entries. -/
def sQAEngineer : List Char := "QA Engineer".toList

/-- Role string used for debugger entries. -/
def sDebugSpecialist : List Char := "Debug Specialist".toList

/-- Topic prefix of the code-review dialogue. -/
def sCodeReviewTopic : List Char := "Code Review: ".toList

/-- Topic prefix of the test-debug dialogue. -/
def sTestDebugTopic : List Char := "Test & Debug: ".toList

/-- The reviewer prompt of `run_code_review_dialogue`. -/
def review_prompt : List Char :=
  ("Review the code changes described above. Check for bugs, security issues, " ++
   "edge cases, and correctness. If the code looks good, say \x27APPROVED\x27. " ++
   "If issues exist, list them clearly so the Coder can fix them.").toList

/-- The coder revision prompt of `run_code_review_dialogue`. -/
def revision_prompt : List Char :=
  ("The Reviewer found issues with your code. Fix all the issues mentioned " ++
   "above. Apply the changes using Edit or Write tools.").toList

/-- The debugger prompt of `run_test_debug_dialogue`. -/
def debug_prompt : List Char :=
  ("The test results above show failures. Read the failing code, diagnose the " ++
   "root cause, and apply fixes using Edit tools. Explain what was wrong in " ++
   "simple terms before fixing.").toList

/-- The tester re-run prompt of `run_test_debug_dialogue`. -/
def retest_prompt : List Char :=
  ("The Debugger applied fixes above. Re-run the tests to see if the issues " ++
   "are resolved. Report clearly what passes and what still fails.").toList

/-- Python `"\n".join(parts)`. -/
def joinNl : List (List Char) → List Char
  | [] => []
  | [p] => p
  | p :: q :: rest => p ++ '\n' :: joinNl (q :: rest)

/-- Embedding of `DialogueRound.get_context`: render the transcript so far,
optionally addressed to `for_agent` (Python passes `""` for no addressee). -/
def DialogueRound.get_context (d : DialogueRound) (for_agent : List Char) :
    List Char :=
  if d.entries = [] then []
  else
    let header := ("## Ongoing Discussion: ".toList) ++ d.topic ++ ['\n']
    let body := d.entries.map (fun e =>
      ("**".toList) ++ e.agent_name ++ ("** (".toList) ++ e.role ++
      ("):\n".toList) ++ e.content ++ ['\n'])
    let turnNote :=
      if for_agent ≠ [] then
        [('\n' :: "Now it\x27s your turn, ".toList) ++ for_agent ++
         (". Respond to the discussion above.".toList)]
      else []
    joinNl (header :: body ++ turnNote)

/-- Events emitted by the dialogue runners (the `emit` callback of
`dialogue.py`, modelled as an accumulated list). -/
inductive DEvent where
  | dialogue_start (topic : List Char) (agents : List (List Char))
  | dialogue_exchange (round : Nat) (src dst : List Char)
  | dialogue_resolved (topic : List Char) (result : List Char) (rounds : Nat)
  | dialogue_end (topic : List Char) (exchanges : Nat)
deriving DecidableEq, Repr

/-- The two external capability oracles of the code-review dialogue: each maps
a prompt and an optional context to the produced text (`BaseAgent.think`). -/
structure ReviewAgents where
  coderThink : List Char → Option (List Char) → List Char
  reviewerThink : List Char → Option (List Char) → List Char

/-- The two external capability oracles of the test-debug dialogue. -/
structure TestAgents where
  testerThink : List Char → Option (List Char) → List Char
  debuggerThink : List Char → Option (List Char) → List Char

/-- The `for round_num in range(max_rounds)` loop of `run_code_review_dialogue`.
`fuel` counts the remaining loop indices (`max_rounds - round_num`), so the
recursion is structural; `round_num` is the Python loop variable. -/
def codeReviewLoop (ag : ReviewAgents) (max_rounds : Nat) :
    Nat → Nat → DialogueRound → List DEvent → DialogueRound × List DEvent
  | 0, _, d, evs => (d, evs)
  | fuel + 1, round_num, d, evs =>
    if d.at_limit then (d, evs)
    else
      let evs := evs ++ [DEvent.dialogue_exchange (round_num + 1) sCoder sReviewer]
      let review_context := d.get_context sReviewer
      let review_response := ag.reviewerThink review_prompt (some review_context)
      let d := d.add sReviewer review_response sCodeReviewer
      if is_approved review_response then
        (d, evs ++ [DEvent.dialogue_resolved d.topic ("approved".toList) (round_num + 1)])
      else if round_num < max_rounds - 1 then
        let evs := evs ++ [DEvent.dialogue_exchange (round_num + 1) sReviewer sCoder]
        let revision_context := d.get_context sCoder
        let revision_response := ag.coderThink revision_prompt (some revision_context)
        let d := d.add sCoder revision_response sDeveloper
        codeReviewLoop ag max_rounds fuel (round_num + 1) d evs
      else
        codeReviewLoop ag max_rounds fuel (round_num + 1) d evs

/-- Embedding of `run_code_review_dialogue`.  Returns the final dialogue round,
the emitted events, and the returned text. -/
def run_code_review_dialogue (ag : ReviewAgents) (task : List Char)
    (max_rounds : Nat) : DialogueRound × List DEvent × List Char :=
  let dialogue : DialogueRound :=
    { topic := sCodeReviewTopic ++ task.take 100
      entries := []
      max_exchanges := max_rounds * 2 }
  let evs := [DEvent.dialogue_start dialogue.topic [sCoder, sReviewer]]
  let code_response := ag.coderThink task none
  let dialogue := dialogue.add sCoder code_response sDeveloper
  let (d, evs) := codeReviewLoop ag max_rounds max_rounds 0 dialogue evs
  let evs := evs ++ [DEvent.dialogue_end d.topic d.exchange_count]
  (d, evs, (match d.last_entry with
            | some e => e.content
            | none => code_response))

/-- The `for round_num in range(max_rounds)` loop of `run_test_debug_dialogue`.
`test_response` is the Python local of the same name (only updated on a
re-test, which happens when `round_num < max_rounds - 1`). -/
def testDebugLoop (ag : TestAgents) (max_rounds : Nat) :
    Nat → Nat → DialogueRound → List Char → List DEvent →
    DialogueRound × List DEvent
  | 0, _, d, _, evs => (d, evs)
  | fuel + 1, round_num, d, test_response, evs =>
    if d.at_limit then (d, evs)
    else if tests_passed test_response then
      (d, evs ++ [DEvent.dialogue_resolved d.topic ("all_passing".toList) (round_num + 1)])
    else
      let evs := evs ++ [DEvent.dialogue_exchange (round_num + 1) sTester sDebugger]
      let debug_context := d.get_context sDebugger
      let debug_response := ag.debuggerThink debug_prompt (some debug_context)
      let d := d.add sDebugger debug_response sDebugSpecialist
      if round_num < max_rounds - 1 then
        let evs := evs ++ [DEvent.dialogue_exchange (round_num + 1) sDebugger sTester]
        let retest_context := d.get_context sTester
        let test_response := ag.testerThink retest_prompt (some retest_context)
        let d := d.add sTester test_response sQAEngineer
        testDebugLoop ag max_rounds fuel (round_num + 1) d test_response evs
      else
        testDebugLoop ag max_rounds fuel (round_num + 1) d test_response evs

/-- Embedding of `run_test_debug_dialogue`. -/
def run_test_debug_dialogue (ag : TestAgents) (task : List Char)
    (max_rounds : Nat) : DialogueRound × List DEvent × List Char :=
  let dialogue : DialogueRound :=
    { topic := sTestDebugTopic ++ task.take 100
      entries := []
      max_exchanges := max_rounds * 2 }
  let evs := [DEvent.dialogue_start dialogue.topic [sTester, sDebugger]]
  let test_response := ag.testerThink task none
  let dialogue := dialogue.add sTester test_response sQAEngineer
  let (d, evs) := testDebugLoop ag max_rounds max_rounds 0 dialogue test_response evs
  let evs := evs ++ [DEvent.dialogue_end d.topic d.exchange_count]
  (d, evs, (match d.last_entry with
            | some e => e.content
            | none => test_response))

/-! ### Sandbox path validation (`sandbox/executor.py`)

Paths are POSIX strings.  `pathlib.Path` normalisation keeps `..` segments but
drops empty and `.` segments; `resolve()` is modelled on a symlink-free
filesystem whose sandbox work directory is itself already resolved (it comes
from `tempfile.mkdtemp`), as a left-to-right `..` elimination. -/

/-- Split a character list at every occurrence of `sep`, keeping empty pieces
(the splitting behaviour under `pathlib` parsing). -/
def splitOnChar (sep : Char) : List Char → List (List Char)
  | [] => [[]]
  | c :: rest =>
    match splitOnChar sep rest with
    | [] => [[]]
    | piece :: more =>
      if c = sep then [] :: piece :: more else (c :: piece) :: more

/-- A parsed `pathlib.PurePosixPath`: an absolute flag plus the retained
segments (empty and `.` segments dropped, `..` kept). -/
structure PyPath where
  absolute : Bool
  components : List (List Char)
deriving DecidableEq, Repr

/-- Embedding of `pathlib.Path(path)` parsing (POSIX flavour). -/
def parsePath (s : List Char) : PyPath :=
  { absolute := match s with
      | c :: _ => c = '/'
      | [] => false
    components := (splitOnChar '/' s).filter
      (fun c => !(decide (c = [])) && !(decide (c = ['.']))) }

/-- Join path segments with `/`. -/
def joinSlash : List (List Char) → List Char
  | [] => []
  | [c] => c
  | c :: rest => c ++ '/' :: joinSlash rest

/-- Embedding of `str(Path(...))`: the normalised textual form (`.` for an
empty relative path, `/` for the bare root). -/
def pathStr (p : PyPath) : List Char :=
  if p.components = [] then (if p.absolute then ['/'] else ['.'])
  else (if p.absolute then '/' :: joinSlash p.components else joinSlash p.components)

/-- The `..` segment / substring. -/
def sDotdot : List Char := "..".toList

/-- Segments of `work_dir / clean_path` (`pathlib` discards the left operand
when the right one is absolute). -/
def joinUnder (wd : List (List Char)) (p : PyPath) : List (List Char) :=
  if p.absolute then p.components else wd ++ p.components

/-- Left-to-right `..` elimination: the effect of `Path.resolve()` on a
symlink-free tree (a `..` at the root stays at the root). -/
def resolveComps (acc : List (List Char)) : List (List Char) → List (List Char)
  | [] => acc
  | c :: rest =>
    if c = sDotdot then resolveComps acc.dropLast rest
    else resolveComps (acc ++ [c]) rest

/-- Embedding of `Sandbox._validate_path` on a sandbox whose work directory is
`work_dir` (as resolved absolute segments).  Raised `ValueError`s become
`Except.error` carrying the message. -/
def validate_path (work_dir : Option (List (List Char))) (path : List Char) :
    Except (List Char) (List (List Char)) :=
  match work_dir with
  | none => .error ("Sandbox not initialized".toList)
  | some wd =>
    let clean_path := parsePath path
    if clean_path.absolute then .error ("Absolute paths not allowed".toList)
    else if containsSub sDotdot (pathStr clean_path) then
      .error ("Path traversal not allowed".toList)
    else
      let full_path := resolveComps [] (joinUnder wd clean_path)
      if decide (wd <+: full_path) then .ok full_path
      else .error ("Path escapes sandbox directory".toList)

/-- Embedding of `Sandbox.ALLOWED_EXTENSIONS`. -/
def ALLOWED_EXTENSIONS : List (List Char) :=
  [".py".toList, ".js".toList, ".ts".toList, ".json".toList, ".txt".toList,
   ".md".toList, ".html".toList, ".css".toList, ".yaml".toList, ".yml".toList]

/-- Embedding of `Sandbox.MAX_FILE_SIZE` (1 MiB). -/
def MAX_FILE_SIZE : Nat := 1024 * 1024

/-- Embedding of `Path(path).name`: the final retained segment. -/
def pathName (path : List Char) : List Char :=
  (parsePath path).components.getLastD []

/-- Embedding of `PurePath.suffix`: the part of the name from its last dot,
provided that dot is neither leading nor trailing. -/
def pySuffix (name : List Char) : List Char :=
  match (List.range name.length).reverse.find? (fun i => name.getD i ' ' = '.') with
  | some i => if 0 < i ∧ i < name.length - 1 then name.drop i else []
  | none => []

/-- Embedding of `Sandbox._validate_file_extension`. -/
def validate_file_extension (path : List Char) : Bool :=
  let ext := pyLower (pySuffix (pathName path))
  decide (ext ∈ ALLOWED_EXTENSIONS) || decide (ext = [])

/-- Embedding of the validation pipeline of `Sandbox.write_file` on an
initialized sandbox: path validation, then extension check, then size check.
The subsequent `mkdir`/`write_text` filesystem effect is taken to succeed for
every validated path, and the `if not self.work_dir: self.setup()` branch is
outside this model (the claim concerns an initialized sandbox). -/
def write_file_checks (wd : List (List Char)) (path content : List Char) :
    Except (List Char) (List (List Char)) :=
  match validate_path (some wd) path with
  | .error e => .error e
  | .ok full_path =>
    if !(validate_file_extension path) then
      .error ("File extension not allowed".toList)
    else if decide (MAX_FILE_SIZE < content.length) then
      .error ("File too large".toList)
    else
      .ok full_path

/-- Modelled from the claim wording (for comparison with `write_file_checks`):
`p` is relative, contains no parent-directory traversal *segment*, resolves
*strictly* inside the work directory, has an allowed extension, and the
content is at most 1 MiB. -/
def specWriteAccepts (wd : List (List Char)) (path content : List Char) : Bool :=
  let p := parsePath path
  let resolved := resolveComps [] (joinUnder wd p)
  !p.absolute &&
  !(decide (sDotdot ∈ p.components)) &&
  (decide (wd <+: resolved) && !(decide (resolved = wd))) &&
  validate_file_extension path &&
  decide (content.length ≤ MAX_FILE_SIZE)

/-! ### Sandbox cleanup (`Sandbox.cleanup`)

The filesystem is a set of directory paths (as resolved segment lists); the
sandbox holds an optional work-directory binding.  `shutil.rmtree` removes the
directory and everything below it; its `ignore_errors=True` best-effort nature
and the surrounding `try/except` mean `cleanup` never raises, which the model
expresses by being a total function. -/

/-- The mutable part of a `Sandbox` relevant to `cleanup`. -/
structure SandboxState where
  work_dir : Option (List (List Char))
deriving DecidableEq, Repr

/-- The filesystem as a set of existing directories. -/
structure FS where
  dirs : List (List (List Char))
deriving DecidableEq, Repr

/-- Embedding of `Sandbox.cleanup`: if a work directory is bound and exists,
remove it recursively and clear the binding (the `finally` clause); otherwise
do nothing. -/
def sandbox_cleanup : SandboxState × FS → SandboxState × FS
  | (s, fs) =>
    match s.work_dir with
    | none => (s, fs)
    | some d =>
      if d ∈ fs.dirs then
        (⟨none⟩, ⟨fs.dirs.filter (fun p => !(decide (d <+: p)))⟩)
      else (s, fs)

/-- Embedding of `Sandbox.setup`: bind a fresh directory created by
`tempfile.mkdtemp` (the fresh name is an oracle argument). -/
def sandbox_setup (x : SandboxState × FS) (freshDir : List (List Char)) :
    SandboxState × FS :=
  (⟨some freshDir⟩, ⟨x.2.dirs ++ [freshDir]⟩)

/-- States reachable through the `Sandbox` API: a bound work directory exists
on the filesystem (`setup` creates it; `cleanup` clears the binding when it
removes it). -/
def SandboxInv : SandboxState × FS → Prop
  | (s, fs) => ∀ d, s.work_dir = some d → d ∈ fs.dirs

/-! ### Orchestrator engine (`orchestrator/engine.py`)

The planner/coder/debugger capability calls and the `_extract_json` text
machinery applied to their output are external to the engine's control flow;
they enter the model as oracle functions whose result is the extraction
output: an optional parsed JSON object (the `Optional[dict]` contract of
`_extract_json`).  Python exceptions escaping a phase become `Except.error`
values carrying the message and the state at the raise point (the mutations
made before the raise persist, as they do on `self.state`). -/

/-- A parsed JSON value. -/
inductive Json where
  | null
  | jbool (b : Bool)
  | jnum (n : Int)
  | jstr (s : List Char)
  | jarr (elems : List Json)
  | jobj (fields : List (List Char × Json))

/-- A parsed JSON object, as returned by `_extract_json`. -/
def JsonObj : Type := List (List Char × Json)

/-- Lookup of a key in a JSON object (first binding wins, as in a dict). -/
def objLookup (fields : JsonObj) (k : List Char) : Option Json :=
  (fields.find? (fun kv => decide (kv.1 = k))).map (fun kv => kv.2)

/-- Python `d.get(k)`: `None` (null) when the key is absent. -/
def pyGet (fields : JsonObj) (k : List Char) : Json :=
  (objLookup fields k).getD Json.null

/-- Python `k in d`. -/
def hasKey (fields : JsonObj) (k : List Char) : Bool :=
  (objLookup fields k).isSome

/-- Python truthiness of a JSON value. -/
def jTruthy : Json → Bool
  | .null => false
  | .jbool b => b
  | .jnum n => decide (n ≠ 0)
  | .jstr s => !s.isEmpty
  | .jarr xs => !xs.isEmpty
  | .jobj fs => !fs.isEmpty

/-- Lookup in a string-keyed dict (used for the `path -> content` file map). -/
def dictLookup {α : Type} (m : List (List Char × α)) (k : List Char) :
    Option α :=
  (m.find? (fun kv => decide (kv.1 = k))).map (fun kv => kv.2)

/-- Python dict assignment `m[k] = v`: update in place, else append. -/
def dictInsert {α : Type} (m : List (List Char × α)) (k : List Char) (v : α) :
    List (List Char × α) :=
  if (dictLookup m k).isSome then
    m.map (fun kv => if kv.1 = k then (k, v) else kv)
  else m ++ [(k, v)]

/-- Fuel-driven scanner behind `pyReplace`. -/
def pyReplaceF (old new : List Char) : Nat → List Char → List Char
  | 0, s => s
  | _ + 1, [] => []
  | fuel + 1, c :: rest =>
    if old ≠ [] ∧ old <+: (c :: rest) then
      new ++ pyReplaceF old new fuel ((c :: rest).drop old.length)
    else
      c :: pyReplaceF old new fuel rest

/-- Python `s.replace(old, new)` for nonempty `old`: replace all
non-overlapping occurrences, left to right. -/
def pyReplace (old new s : List Char) : List Char :=
  pyReplaceF old new s.length s

/-- The `ProjectStatus` enumeration of `engine.py`. -/
inductive ProjectStatus where
  | planning | coding | reviewing | testing
  | debugging | verifying | complete | failed
deriving DecidableEq, Repr

/-- An emitted engine event: its type tag and a textual rendering of the
payload (payload structure beyond the type tag is abstracted). -/
structure EEvent where
  etype : List Char
  info : List Char
deriving DecidableEq, Repr

/-- Embedding of `ProjectState` (the fields the modelled phases touch). -/
structure EState where
  name : List Char
  user_request : List Char
  status : ProjectStatus
  plan : Option JsonObj
  files : List (List Char × List Char)
  errors : List (List Char)
  messages : List EEvent
  iterations : Nat
  max_iterations : Nat

/-- Embedding of `Orchestrator.emit`: record the event on the state's message
log (delivery to the optional UI callback carries no control flow). -/
def emitE (st : EState) (etype info : List Char) : EState :=
  { st with messages := st.messages ++ [⟨etype, info⟩] }

/-- Event tag emitted per debug attempt. -/
def kDebugAttempt : List Char := "debug_attempt".toList

/-- Event tag for an unparseable fix. -/
def kDebugFailed : List Char := "debug_failed".toList

/-- Event tag when the debugger asks for more information. -/
def kDebugQuestion : List Char := "debug_question".toList

/-- Event tag after applying a fix. -/
def kFixApplied : List Char := "fix_applied".toList

/-- Event tag on a successful re-run. -/
def kDebugSuccess : List Char := "debug_success".toList

/-- Event tag after the debug loop ends without success. -/
def kDebugExhausted : List Char := "debug_exhausted".toList

/-- Key `"need_more_info"`. -/
def kNeedMoreInfo : List Char := "need_more_info".toList

/-- Key `"file_path"`. -/
def kFilePath : List Char := "file_path".toList

/-- Key `"fix"`. -/
def kFix : List Char := "fix".toList

/-- Key `"new_code"`. -/
def kNewCode : List Char := "new_code".toList

/-- Key `"old_code"`. -/
def kOldCode : List Char := "old_code".toList

/-- The external collaborators of `Orchestrator._debug_loop`: `fixFor` is the
debugger capability call composed with `_extract_json` (fed the current error
text and file map), `runPython` the sandboxed interpreter run (fed the script
path and the current file map), returning success and captured stderr. -/
structure DebugOracles where
  fixFor : List Char → List (List Char × List Char) → Option JsonObj
  runPython : List Char → List (List Char × List Char) → Bool × List Char

/-- Applying a proposed fix to the file map (`_debug_loop` body): full-file
replacement when the new code exceeds 100 characters, otherwise a literal
find/replace gated on a truthy `old_code` and the file being known.  Non-string
`new_code`/`old_code`/`file_path` values make the original raise `TypeError`
at the subsequent string/path operations; the model raises at this point. -/
def applyFix (files : List (List Char × List Char)) (fp nc : List Char)
    (old_codeJ : Json) : Except (List Char) (List (List Char × List Char)) :=
  if 100 < nc.length then
    .ok (dictInsert files fp nc)
  else
    match old_codeJ with
    | Json.jstr oc =>
      if oc ≠ [] ∧ (dictLookup files fp).isSome then
        .ok (dictInsert files fp (pyReplace oc nc ((dictLookup files fp).getD [])))
      else .ok files
    | j =>
      if jTruthy j ∧ (dictLookup files fp).isSome then
        .error ("TypeError: replace() argument 1 must be str".toList)
      else .ok files

/-- The object carried by a `jobj` value, if any (the original calls `.get` on
it and raises `AttributeError` otherwise). -/
def jObjCase : Json → Option JsonObj
  | Json.jobj fs => some fs
  | _ => none

/-- The pair of strings carried by two `jstr` values, if both are strings (the
original raises `TypeError` at the subsequent string/path operations
otherwise). -/
def jStrCase : Json → Json → Option (List Char × List Char)
  | Json.jstr x, Json.jstr y => some (x, y)
  | _, _ => none

/-- One pass of the `while` loop of `Orchestrator._debug_loop`.  `fuel` is the
number of remaining permitted iterations (`max_iterations - iterations`); the
Boolean result records an exit through the `debug_success` `return`.  Escaping
Python exceptions (sandbox `ValueError`s, key errors, type errors on
non-string JSON field values) are `Except.error` with the state at the raise
point. -/
def debugLoopGo (o : DebugOracles) (wd : List (List Char)) :
    Nat → EState → List Char → Except (List Char × EState) (EState × Bool)
  | 0, st, _ => .ok (st, false)
  | fuel + 1, st, error =>
    if st.max_iterations ≤ st.iterations then .ok (st, false)
    else
      let st := { st with iterations := st.iterations + 1 }
      let st := emitE st kDebugAttempt (error.take 500)
      match o.fixFor error st.files with
      | none => .ok (emitE st kDebugFailed ("Could not parse fix".toList), false)
      | some fix =>
        if fix.isEmpty then
          .ok (emitE st kDebugFailed ("Could not parse fix".toList), false)
        else if jTruthy (pyGet fix kNeedMoreInfo) then
          .ok (emitE st kDebugQuestion ("Need more context".toList), false)
        else if jTruthy (pyGet fix kFilePath) && hasKey fix kFix then
          match jObjCase (pyGet fix kFix) with
          | some ffs =>
            if jTruthy (pyGet ffs kNewCode) then
              match jStrCase (pyGet fix kFilePath) (pyGet ffs kNewCode) with
              | some (fp, nc) =>
                (match applyFix st.files fp nc ((objLookup ffs kOldCode).getD (Json.jstr [])) with
                 | .error e => .error (e, st)
                 | .ok files1 =>
                   let st := { st with files := files1 }
                   let st := emitE st kFixApplied fp
                   match dictLookup st.files fp with
                   | none => .error (("KeyError: ".toList) ++ fp, st)
                   | some content =>
                     match write_file_checks wd fp content with
                     | .error e => .error (e, st)
                     | .ok _ =>
                       let res := o.runPython fp st.files
                       if res.1 then
                         .ok (emitE st kDebugSuccess ("Code runs successfully!".toList), true)
                       else
                         debugLoopGo o wd fuel st res.2)
              | none =>
                .error (("TypeError: non-string file path or code".toList), st)
            else
              debugLoopGo o wd fuel st error
          | none => .error (("AttributeError: object has no attribute get".toList), st)
        else
          .ok (emitE st kDebugFailed ("No actionable fix provided".toList), false)

/-- Embedding of `Orchestrator._debug_loop`: run the bounded loop and, unless
it returned through `debug_success`, emit `debug_exhausted`. -/
def debug_loop (o : DebugOracles) (wd : List (List Char)) (st : EState)
    (error : List Char) : Except (List Char × EState) EState :=
  let st := { st with status := ProjectStatus.debugging }
  match debugLoopGo o wd (st.max_iterations - st.iterations) st error with
  | .error e => .error e
  | .ok (st, viaSuccess) =>
    if viaSuccess then .ok st
    else .ok (emitE st kDebugExhausted
        (("Could not fix after ".toList) ++ (Nat.repr st.iterations).toList ++
         (" attempts".toList)))

/-- Embedding of `Orchestrator._phase_planning`, with the planner capability
call composed with `_extract_json` supplied as its result `plannerPlan`.  A
falsy extraction result (`None` or an empty object) raises
`ValueError("Planner failed to produce a valid plan")`. -/
def phase_planning (plannerPlan : Option JsonObj) (st : EState) :
    Except (List Char × EState) EState :=
  let st := { st with status := ProjectStatus.planning }
  let st := emitE st ("phase".toList) ("Planning".toList)
  match plannerPlan with
  | none => .error ("Planner failed to produce a valid plan".toList, st)
  | some plan =>
    if plan.isEmpty then
      .error ("Planner failed to produce a valid plan".toList, st)
    else
      let st := { st with
        plan := some plan
        name := (match objLookup plan ("project_name".toList) with
                 | some (Json.jstr s) => s
                 | some _ => []
                 | none => "project".toList) }
      .ok (emitE st ("plan_ready".toList) [])

/-- The caller-visible part of the dict returned by `Orchestrator.build`
(`success`, `error`, and the `files` / `partial_files` map). -/
structure BuildResult where
  success : Bool
  error : Option (List Char)
  files : List (List Char × List Char)

/-- Embedding of `Orchestrator.build`: initialize the project state, run the
planning phase and then the remaining phases (supplied as `restPhases`, since
their coding/verification/review/testing bodies call further external
capabilities); any escaping exception is caught, the state is marked `failed`
and a failure dict with the partial file map is returned.  The sandbox
cleanup in the `finally` block acts on the sandbox, not on this state. -/
def build (plannerPlan : Option JsonObj)
    (restPhases : EState → Except (List Char × EState) EState)
    (user_request : List Char) : BuildResult × EState :=
  let st0 : EState :=
    { name := "new-project".toList
      user_request := user_request
      status := ProjectStatus.planning
      plan := none
      files := []
      errors := []
      messages := []
      iterations := 0
      max_iterations := 3 }
  match (phase_planning plannerPlan st0).bind restPhases with
  | .ok st =>
    let st := { st with status := ProjectStatus.complete }
    let st := emitE st ("complete".toList) st.name
    ({ success := true, error := none, files := st.files }, st)
  | .error (e, stE) =>
    let st := { stE with status := ProjectStatus.failed, errors := stE.errors ++ [e] }
    let st := emitE st ("error".toList) e
    ({ success := false, error := some e, files := st.files }, st)

/-- Event-type tags of a state's message log. -/
def msgTypes (st : EState) : List (List Char) := st.messages.map (fun e => e.etype)

/-- Message log of either outcome of a debug-loop run (the state at the raise
point for an escape). -/
def outState : Except (List Char × EState) EState → EState
  | .ok st => st
  | .error (_, st) => st

/-- The escaping message of a failed run (empty for a normal one). -/
def outErrMsg : Except (List Char × EState) EState → List Char
  | .ok _ => []
  | .error (e, _) => e

/-! ### File locator (`storage/file_locator.py` with `storage/database.py`)

The SQLite store is modelled as the list of project rows; `list_projects`
mirrors its query (`WHERE status = ? ORDER BY updated_at DESC LIMIT ?`,
timestamps compared as integers).  The three `re.search` build patterns are
translated into an explicit backtracking matcher over the pattern shape
`verb \s+ (me\s+)? (a\s+)? (.+?) (\s+app|\s+tool|\s+website|\s+project)? $`
with Python preference order: leftmost start, greedy `\s+` and optional
groups, lazy capture (ASCII scope for the `\w`/`\s` classes and for
`IGNORECASE`). -/

/-- Embedding of the `Project` dataclass rows of `database.py`. -/
structure Project where
  id : Option Int
  name : List Char
  description : List Char
  directory : List Char
  status : List Char
  updated_at : Int
deriving DecidableEq, Repr

/-- Status literal `"active"`. -/
def sActive : List Char := "active".toList

/-- Status literal `"deleted"`. -/
def sDeleted : List Char := "deleted".toList

/-- Insert a row into a list sorted by decreasing `updated_at`. -/
def insertByUpdated (p : Project) : List Project → List Project
  | [] => [p]
  | q :: rest =>
    if q.updated_at < p.updated_at then p :: q :: rest
    else q :: insertByUpdated p rest

/-- Sort rows by decreasing `updated_at` (the `ORDER BY updated_at DESC`;
SQLite fixes no order among equal timestamps, the model uses a stable one). -/
def sortByUpdatedDesc : List Project → List Project
  | [] => []
  | p :: rest => insertByUpdated p (sortByUpdatedDesc rest)

/-- Embedding of `Database.list_projects`. -/
def list_projects (db : List Project) (status : List Char) (limit : Nat) :
    List Project :=
  ((sortByUpdatedDesc db).filter (fun p => decide (p.status = status))).take limit

/-- Embedding of `Database.get_project` (`id` is the unique primary key). -/
def get_project (db : List Project) (project_id : Int) : Option Project :=
  db.find? (fun p =>
    decide (p.id = some project_id) && !(decide (p.status = sDeleted)))

/-- Embedding of `FileLocator._match_existing_project`: the first of the 20
most-recently-updated active projects whose lowercased name occurs in the
lowercased message. -/
def match_existing_project (db : List Project) (message : List Char) :
    Option Project :=
  let projects := list_projects db sActive 20
  let msg_lower := pyLower message
  projects.find? (fun p => containsSub (pyLower p.name) msg_lower)

/-- Python `\s` on ASCII. -/
def isWsPy (c : Char) : Bool :=
  c = ' ' || c = '\t' || c = '\n' || c = '\x0b' || c = '\x0c' || c = '\r'

/-- Python `\w` on ASCII. -/
def isWordPy (c : Char) : Bool := c.isAlphanum || c = '_'

/-- Match a lowercase pattern literal case-insensitively against a list
prefix, returning the remainder. -/
def litCI : List Char → List Char → Option (List Char)
  | [], s => some s
  | _ :: _, [] => none
  | w :: ws, c :: cs => if c.toLower = w then litCI ws cs else none

/-- Remainders after `\s+` (greedy, longest consumption first). -/
def wsPlusRems (s : List Char) : List (List Char) :=
  let n := (s.takeWhile isWsPy).length
  (List.range n).map (fun i => s.drop (n - i))

/-- Remainders after an optional `(?:word\s+)?` (greedy: match first). -/
def optWord (w : List Char) (s : List Char) : List (List Char) :=
  (match litCI w s with
   | some r => wsPlusRems r
   | none => []) ++ [s]

/-- Remainders (in preference order) of `build\s+(?:me\s+)?(?:a\s+)?`. -/
def pre1 (s : List Char) : List (List Char) :=
  match litCI ("build".toList) s with
  | none => []
  | some r =>
    (wsPlusRems r).flatMap (fun r2 =>
      (optWord ("me".toList) r2).flatMap (fun r3 => optWord ("a".toList) r3))

/-- Remainders of `create\s+(?:a\s+)?`. -/
def pre2 (s : List Char) : List (List Char) :=
  match litCI ("create".toList) s with
  | none => []
  | some r => (wsPlusRems r).flatMap (fun r2 => optWord ("a".toList) r2)

/-- Remainders of `make\s+(?:me\s+)?(?:a\s+)?`. -/
def pre3 (s : List Char) : List (List Char) :=
  match litCI ("make".toList) s with
  | none => []
  | some r =>
    (wsPlusRems r).flatMap (fun r2 =>
      (optWord ("me".toList) r2).flatMap (fun r3 => optWord ("a".toList) r3))

/-- The optional trailing words of the build patterns. -/
def suffix_words : List (List Char) :=
  ["app".toList, "tool".toList, "website".toList, "project".toList]

/-- Python `$` (no `MULTILINE`): end of input, or just before a final
newline. -/
def atEndPy (s : List Char) : Bool := s = [] || s = ['\n']

/-- Does `(?:\s+app|\s+tool|\s+website|\s+project)?$` match `rest` whole? -/
def sufMatch (rest : List Char) : Bool :=
  (suffix_words.any (fun w =>
    (wsPlusRems rest).any (fun r =>
      match litCI w r with
      | some r2 => atEndPy r2
      | none => false))) || atEndPy rest

/-- The lazy capture `(.+?)`: shortest group (of non-newline characters) whose
remainder satisfies the trailing pattern. -/
def lazyGroup (rest : List Char) : Option (List Char) :=
  (List.range rest.length).findSome? (fun i =>
    let g := rest.take (i + 1)
    if g.all (fun c => !(c = '\n')) && sufMatch (rest.drop (i + 1)) then some g
    else none)

/-- `re.search` for a build pattern: leftmost start position, then the
pattern's own preference order. -/
def searchGroup (pre : List Char → List (List Char)) (msg : List Char) :
    Option (List Char) :=
  (List.range (msg.length + 1)).findSome? (fun i =>
    (pre (msg.drop i)).findSome? (fun r => lazyGroup r))

/-- Python `str.strip()` (ASCII whitespace). -/
def stripPy (s : List Char) : List Char :=
  ((s.dropWhile isWsPy).reverse.dropWhile isWsPy).reverse

/-- Fuel-driven run-collapser behind `collapseWs`. -/
def collapseWsF : Nat → List Char → List Char
  | 0, s => s
  | _ + 1, [] => []
  | fuel + 1, c :: rest =>
    if isWsPy c then '-' :: collapseWsF fuel (rest.dropWhile isWsPy)
    else c :: collapseWsF fuel rest

/-- `re.sub(r'\s+', '-', s)`: each maximal whitespace run becomes one `-`. -/
def collapseWs (s : List Char) : List Char := collapseWsF s.length s

/-- Embedding of `FileLocator._sanitize_name`. -/
def sanitize_name (name : List Char) : List Char :=
  let clean := name.filter (fun c => isWordPy c || isWsPy c || c = '-')
  let clean := collapseWs (stripPy clean)
  let clean := pyLower clean
  let clean := clean.take 50
  if clean = [] then "project".toList else clean

/-- Embedding of `FileLocator._extract_project_name`: the three build
patterns in order, the matched group stripped and sanitized. -/
def extract_project_name (message : List Char) : Option (List Char) :=
  match searchGroup pre1 message with
  | some raw => some (sanitize_name (stripPy raw))
  | none =>
    match searchGroup pre2 message with
    | some raw => some (sanitize_name (stripPy raw))
    | none => (searchGroup pre3 message).map (fun raw => sanitize_name (stripPy raw))

/-- The `n`-th name candidate of `_create_project_dir`: the base directory,
then `base-1`, `base-2`, … -/
def candidateDir (base : List Char) (n : Nat) : List Char :=
  if n = 0 then base else base ++ '-' :: (Nat.repr n).toList

/-- The `while os.path.exists(target)` search, fuelled: on a finite
filesystem, `fs.length + 1` candidates suffice. -/
def firstFreeAux (fs : List (List Char)) (base : List Char) :
    Nat → Nat → List Char
  | 0, n => candidateDir base n
  | fuel + 1, n =>
    if candidateDir base n ∈ fs then firstFreeAux fs base fuel (n + 1)
    else candidateDir base n

/-- Embedding of `FileLocator._create_project_dir` on a filesystem holding the
path set `fs` (the final `os.makedirs` effect is outside the model; the
function returns the chosen path). -/
def create_project_dir (fs : List (List Char)) (projects_dir name : List Char) :
    List Char :=
  firstFreeAux fs (projects_dir ++ '/' :: name) (fs.length + 1) 0

/-- The scratch directory name. -/
def sScratch : List Char := "_scratch".toList

/-- Embedding of `FileLocator.resolve`: existing-name match, then the active
project (a Python-truthy id whose row exists and whose directory is on disk),
then new-name extraction, then the scratch directory. -/
def resolve (db : List Project) (fs : List (List Char)) (projects_dir : List Char)
    (user_message : List Char) (active_project_id : Option Int) :
    List Char × Option Int :=
  match match_existing_project db user_message with
  | some project => (project.directory, project.id)
  | none =>
    let byActive : Option (List Char × Option Int) :=
      match active_project_id with
      | some apid =>
        if apid ≠ 0 then
          match get_project db apid with
          | some project =>
            if project.directory ∈ fs then some (project.directory, project.id)
            else none
          | none => none
        else none
      | none => none
    match byActive with
    | some r => r
    | none =>
      match extract_project_name user_message with
      | some project_name => (create_project_dir fs projects_dir project_name, none)
      | none => (projects_dir ++ '/' :: sScratch, none)

/-! ### Session manager (`api/session_manager.py`) -/

/-- Embedding of `MAX_SESSIONS_PER_CONNECTION`. -/
def MAX_SESSIONS_PER_CONNECTION : Nat := 10

/-- Embedding of a `Session` record (the orchestrator instance it embeds is
opaque to the session-count behaviour). -/
structure SessionRec where
  sid : List Char
  sstatus : List Char
  project_name : Option (List Char)
  project_id : Option Int
deriving DecidableEq, Repr

/-- Embedding of `SessionManager.create_session`: reject at the per-connection
ceiling with a raised `ValueError` (the map is untouched), otherwise insert a
fresh idle session under the generated id (an oracle argument, a `uuid4`
fragment). -/
def create_session (sessions : List (List Char × SessionRec))
    (newId : List Char) :
    List (List Char × SessionRec) × Except (List Char) SessionRec :=
  if MAX_SESSIONS_PER_CONNECTION ≤ sessions.length then
    (sessions, .error (("Maximum ".toList) ++
      (Nat.repr MAX_SESSIONS_PER_CONNECTION).toList ++
      (" sessions reached".toList)))
  else
    let s : SessionRec :=
      { sid := newId, sstatus := "idle".toList
        project_name := none, project_id := none }
    (dictInsert sessions newId s, .ok s)

/-! ### Helpers for theorem statements and concrete instances -/

/-- Number of entries a given agent contributed to a dialogue round. -/
def countAgent (d : DialogueRound) (agent : List Char) : Nat :=
  (d.entries.filter (fun e => decide (e.agent_name = agent))).length

/-- Recognizer for `dialogue_resolved` events. -/
def isResolvedEv : DEvent → Bool
  | DEvent.dialogue_resolved _ _ _ => true
  | _ => false

/-- The marker `"fail"`. -/
def sFail : List Char := "fail".toList

/-- The marker `"bug"`. -/
def sBug : List Char := "bug".toList

/-- A concrete review-dialogue agent pair: the reviewer answers with an
approval that also names a bug, the coder with fixed text. -/
def cxAgents : ReviewAgents :=
  { coderThink := fun _ _ => "implemented the endpoint".toList
    reviewerThink := fun _ _ => "Approved. One bug note: none blocking.".toList }

/-- A concrete test-dialogue agent pair whose tester always reports
`0 failed`. -/
def zeroFailedAgents : TestAgents :=
  { testerThink := fun _ _ => "0 failed".toList
    debuggerThink := fun _ _ => "patched".toList }

/-- A concrete sandbox work directory, `/tmp/vibe_demo`. -/
def wdDemo : List (List Char) := ["tmp".toList, "vibe_demo".toList]

/-- A concrete engine state entering the debug loop with one known file. -/
def stDemo : EState :=
  { name := "demo".toList
    user_request := "req".toList
    status := ProjectStatus.verifying
    plan := none
    files := [("x.py".toList, "print(1)".toList)]
    errors := []
    messages := []
    iterations := 0
    max_iterations := 3 }

/-- A 101-character replacement body (above the full-file threshold). -/
def longCode : List Char := List.replicate 101 'a'

/-- A debug oracle whose fix targets a traversal path, so that applying it
makes `Sandbox.write_file` raise. -/
def oTraversal : DebugOracles :=
  { fixFor := fun _ _ => some
      [(kFilePath, Json.jstr ("../x.py".toList)),
       (kFix, Json.jobj [(kNewCode, Json.jstr longCode)])]
    runPython := fun _ _ => (true, []) }

/-- A debug oracle whose fix never parses. -/
def oUnparseable : DebugOracles :=
  { fixFor := fun _ _ => none
    runPython := fun _ _ => (false, []) }

/-- Twenty recently-updated active projects named `aaa0` … `aaa19`. -/
def mk20 : List Project :=
  (List.range 20).map (fun k =>
    { id := some (Int.ofNat (k + 2))
      name := ("aaa".toList) ++ (Nat.repr k).toList
      description := []
      directory := ("/d".toList) ++ (Nat.repr k).toList
      status := sActive
      updated_at := Int.ofNat (100 - k) })

/-- An older active project literally named `myapp`. -/
def pMyapp : Project :=
  { id := some 1
    name := "myapp".toList
    description := []
    directory := "/proj/myapp".toList
    status := sActive
    updated_at := 1 }

/-- A store of 21 active projects in which `myapp` is the least recently
updated. -/
def db21 : List Project := mk20 ++ [pMyapp]

/-- The message mentioning the existing project `myapp`. -/
def msgMyapp : List Char := "improve myapp".toList

/-- The build request of the recipe-finder scenario. -/
def msgRecipe : List Char := "Build me a recipe finder".toList

/-- A full map of ten sessions keyed `0` … `9`. -/
def tenSessions : List (List Char × SessionRec) :=
  (List.range 10).map (fun k =>
    ((Nat.repr k).toList,
     { sid := (Nat.repr k).toList, sstatus := "idle".toList
       project_name := none, project_id := none }))

/-- The state carried by either outcome of the debug-loop body. -/
def goState : Except (List Char × EState) (EState × Bool) → EState
  | .ok (st, _) => st
  | .error (_, st) => st

/-- Did the debug-loop body exit through the `debug_success` `return`? -/
def goSucceeded : Except (List Char × EState) (EState × Bool) → Bool
  | .ok (_, b) => b
  | .error _ => false

/-- Event-type tags appended to `base`-many messages of a state. -/
def newTypes (st : EState) (base : Nat) : List (List Char) :=
  (st.messages.drop base).map (fun e => e.etype)

/-- Outcome contract of the debug-loop body relative to its entry state: the
iteration ceiling is unchanged and respected, the message log only grows, and
the appended events contain no `debug_exhausted` and contain `debug_success`
exactly on the successful exit. -/
def DebugGoOutcome (st : EState)
    (r : Except (List Char × EState) (EState × Bool)) : Prop :=
  ((goState r).max_iterations = st.max_iterations ∧
   (goState r).iterations ≤ st.max_iterations) ∧
  st.messages <+: (goState r).messages ∧
  kDebugExhausted ∉ newTypes (goState r) st.messages.length ∧
  ((kDebugSuccess ∈ newTypes (goState r) st.messages.length) ↔
    goSucceeded r = true)

/-! ## Theorems

Shared lemmas first, then one theorem per claim (with its witness or
counterexample where required). -/

theorem containsSub_iff (sub s : List Char) :
    containsSub sub s = true ↔ sub <:+: s := by
  simp [containsSub]

theorem mem_joinSlash_infix (c : List Char) :
    ∀ l : List (List Char), c ∈ l → c <:+: joinSlash l
  | [], h => absurd h (List.not_mem_nil c)
  | [x], h => by
    rcases List.mem_singleton.1 h with rfl
    simpa [joinSlash] using List.infix_refl c
  | x :: y :: rest, h => by
    rcases List.mem_cons.1 h with rfl | h2
    · exact (List.prefix_append c ('/' :: joinSlash (y :: rest))).isInfix
    · have ih := mem_joinSlash_infix c (y :: rest) h2
      exact (List.infix_cons ih).trans
        (List.suffix_append x ('/' :: joinSlash (y :: rest))).isInfix

theorem mem_components_infix_pathStr (c : List Char) (p : PyPath)
    (h : c ∈ p.components) : c <:+: pathStr p := by
  have h1 : c <:+: joinSlash p.components := mem_joinSlash_infix c _ h
  have hne : ¬ (p.components = []) := by
    intro he
    rw [he] at h
    exact List.not_mem_nil c h
  unfold pathStr
  rw [if_neg hne]
  by_cases habs : p.absolute
  · simpa [habs] using List.infix_cons h1
  · simpa [habs] using h1

theorem resolveComps_no_dotdot :
    ∀ (l : List (List Char)) (acc : List (List Char)), sDotdot ∉ l →
      resolveComps acc l = acc ++ l
  | [], acc, _ => by simp [resolveComps]
  | c :: rest, acc, h => by
    have hc : ¬ (c = sDotdot) := fun he => h (he ▸ List.mem_cons_self c rest)
    have hr : sDotdot ∉ rest := fun hm => h (List.mem_cons_of_mem c hm)
    simp only [resolveComps, if_neg hc]
    rw [resolveComps_no_dotdot rest (acc ++ [c]) hr]
    simp

theorem validate_path_inside (wd full : List (List Char)) (path : List Char)
    (h : validate_path (some wd) path = Except.ok full) : wd <+: full := by
  by_cases h1 : (parsePath path).absolute
  · simp [validate_path, h1] at h
  · by_cases h2 : containsSub sDotdot (pathStr (parsePath path))
    · simp [validate_path, h1, h2] at h
    · by_cases h3 : wd <+: resolveComps [] (joinUnder wd (parsePath path))
      · exact (by simpa [validate_path, h1, h2, h3] using h : _ = full) ▸ h3
      · simp [validate_path, h1, h2, h3] at h

theorem write_file_checks_inside (wd full : List (List Char))
    (path content : List Char)
    (h : write_file_checks wd path content = Except.ok full) : wd <+: full := by
  unfold write_file_checks at h
  cases hv : validate_path (some wd) path with
  | error e => rw [hv] at h; simp at h
  | ok fp =>
    rw [hv] at h
    by_cases h1 : validate_file_extension path
    · by_cases h2 : MAX_FILE_SIZE < content.length
      · simp [h1, h2] at h
      · have : fp = full := by simpa [h1, h2] using h
        exact this ▸ validate_path_inside wd fp path hv
    · simp [h1] at h

/-- C2 (amended): on an initialized sandbox whose resolved work directory has
no `..` segment, `write_file(p, c)` passes its validation iff `p` is relative,
the normalised string of `p` contains no occurrence of the substring `..`,
`p` has an allowed extension, and `len(c) ≤ 1 MiB`; and every accepted path
resolves at or below the work directory, never outside it.  (The original
claim demanded rejection only of parent-traversal *segments* and acceptance
only *strictly* inside; the code checks a substring and accepts the work
directory itself, e.g. for `p = "."`.) -/
theorem claim_C2_write_file_boundary (wd : List (List Char))
    (path content : List Char) (hwd : sDotdot ∉ wd) :
    ((write_file_checks wd path content).isOk = true ↔
      ((parsePath path).absolute = false ∧
       ¬ (sDotdot <:+: pathStr (parsePath path)) ∧
       validate_file_extension path = true ∧
       content.length ≤ MAX_FILE_SIZE)) ∧
    (∀ full, write_file_checks wd path content = Except.ok full →
      wd <+: full) := by
  refine ⟨?_, fun full h => write_file_checks_inside wd full path content h⟩
  unfold write_file_checks validate_path
  by_cases habs : (parsePath path).absolute
  · simp [habs, Except.isOk, Except.toBool]
  · by_cases hdd : sDotdot <:+: pathStr (parsePath path)
    · simp [habs, containsSub, hdd, Except.isOk, Except.toBool]
    · have hcomps : sDotdot ∉ (parsePath path).components := fun hm =>
        hdd (mem_components_infix_pathStr _ _ hm)
      have hjoin : sDotdot ∉ joinUnder wd (parsePath path) := by
        unfold joinUnder
        simp only [habs, Bool.false_eq_true, if_false, List.mem_append]
        rintro (h1 | h2)
        · exact hwd h1
        · exact hcomps h2
      have hres : resolveComps [] (joinUnder wd (parsePath path)) =
          wd ++ (parsePath path).components := by
        rw [resolveComps_no_dotdot _ _ hjoin]
        simp [joinUnder, habs]
      have hpre : wd <+: resolveComps [] (joinUnder wd (parsePath path)) := by
        rw [hres]; exact List.prefix_append wd _
      by_cases hext : validate_file_extension path
      · by_cases hsize : content.length ≤ MAX_FILE_SIZE
        · simp [habs, containsSub, hdd, hpre, hext, hsize, Except.isOk, Except.toBool,
            Nat.not_lt.2 hsize]
        · simp [habs, containsSub, hdd, hpre, hext, hsize, Except.isOk, Except.toBool,
            Nat.lt_of_not_le hsize]
      · simp [habs, containsSub, hdd, hpre, hext, Except.isOk, Except.toBool]

/-- C2 counterexample: the relative path `a..b.py` has no parent-traversal
segment, resolves strictly inside the work directory, has an allowed
extension and a 1-byte content, so the claim requires the write to succeed;
the code rejects it (its check is `'..' in str(path)`). -/
theorem claim_C2_counterexample :
    specWriteAccepts wdDemo ("a..b.py".toList) ['x'] = true ∧
    (write_file_checks wdDemo ("a..b.py".toList) ['x']).isOk = false := by
  constructor <;> decide

/-- C2 witness: the theorem applied at `main.py` on a concrete sandbox. -/
theorem claim_C2_witness :
    (write_file_checks wdDemo ("main.py".toList) ['p']).isOk = true :=
  ((claim_C2_write_file_boundary wdDemo ("main.py".toList) ['p']
      (by decide)).1).2 ⟨by decide, by decide, by decide, by decide⟩

/-- C8: `cleanup` is total (it swallows every exception) and idempotent, and
from any state reachable through the sandbox API (the bound directory, if
any, exists) it leaves no work-directory binding and removes the previously
created work directory. -/
theorem claim_C8_cleanup_idempotent :
    (∀ x : SandboxState × FS,
      sandbox_cleanup (sandbox_cleanup x) = sandbox_cleanup x) ∧
    (∀ (s : SandboxState) (fs : FS), SandboxInv (s, fs) →
      ((sandbox_cleanup (s, fs)).1.work_dir = none ∧
       ∀ d, s.work_dir = some d → d ∉ (sandbox_cleanup (s, fs)).2.dirs)) := by
  constructor
  · rintro ⟨⟨wd⟩, fs⟩
    cases wd with
    | none => rfl
    | some d =>
      by_cases h : d ∈ fs.dirs
      · simp [sandbox_cleanup, h]
      · simp [sandbox_cleanup, h]
  · rintro ⟨wd⟩ fs hinv
    cases wd with
    | none => exact ⟨rfl, fun d hd => by simp at hd⟩
    | some d =>
      have hmem : d ∈ fs.dirs := hinv d rfl
      constructor
      · simp [sandbox_cleanup, hmem]
      · intro d2 hd2
        have : d2 = d := by simpa using hd2.symm
        subst this
        simp [sandbox_cleanup, hmem, List.mem_filter]

/-- C8 witness: the theorem applied to a sandbox bound to an existing
directory. -/
theorem claim_C8_witness :
    (sandbox_cleanup (⟨some wdDemo⟩, ⟨[wdDemo]⟩)).1.work_dir = none ∧
    wdDemo ∉ (sandbox_cleanup (⟨some wdDemo⟩, ⟨[wdDemo]⟩)).2.dirs := by
  have h := claim_C8_cleanup_idempotent.2 ⟨some wdDemo⟩ ⟨[wdDemo]⟩
    (by intro d hd; simp at hd; simp [hd])
  exact ⟨h.1, h.2 wdDemo rfl⟩

theorem mem_dictInsert_of_ne {α : Type} (m : List (List Char × α))
    (k : List Char) (v : α) (kv : List Char × α) (h : kv ∈ m)
    (hne : ¬ (kv.1 = k)) : kv ∈ dictInsert m k v := by
  unfold dictInsert
  by_cases hs : (dictLookup m k).isSome = true
  · rw [if_pos hs]
    exact List.mem_map.2 ⟨kv, h, by rw [if_neg hne]⟩
  · rw [if_neg hs]
    exact List.mem_append_left _ h

/-- C9: while fewer than 10 sessions exist, `create_session` succeeds and
every other session survives (no silent eviction); with 10 sessions it raises
the descriptive `ValueError` and the session map is unchanged. -/
theorem claim_C9_session_limit (sessions : List (List Char × SessionRec))
    (newId : List Char) :
    (sessions.length < MAX_SESSIONS_PER_CONNECTION →
      ((create_session sessions newId).2.isOk = true ∧
       ∀ kv ∈ sessions, ¬ (kv.1 = newId) →
         kv ∈ (create_session sessions newId).1)) ∧
    (MAX_SESSIONS_PER_CONNECTION ≤ sessions.length →
      ((create_session sessions newId).1 = sessions ∧
       (create_session sessions newId).2 =
         Except.error (("Maximum 10 sessions reached").toList))) := by
  constructor
  · intro h
    have hlt : ¬ (MAX_SESSIONS_PER_CONNECTION ≤ sessions.length) :=
      Nat.not_le.2 h
    constructor
    · simp [create_session, hlt, Except.isOk, Except.toBool]
    · intro kv hkv hne
      simp only [create_session, hlt, if_false]
      exact mem_dictInsert_of_ne sessions newId _ kv hkv hne
  · intro h
    constructor
    · simp [create_session, h]
    · simp only [create_session, h, if_true]
      congr 1

/-- C9 witness: creation succeeds on an empty map and is rejected, with the
map unchanged, on a full one. -/
theorem claim_C9_witness :
    (create_session [] ("ab".toList)).2.isOk = true ∧
    (create_session tenSessions ("ab".toList)).1 = tenSessions :=
  ⟨((claim_C9_session_limit [] ("ab".toList)).1 (by decide)).1,
   ((claim_C9_session_limit tenSessions ("ab".toList)).2 (by decide)).1⟩

/-- C3: a planning phase whose extraction result is `None` or an empty object
makes the whole build fail directly — whatever the remaining phases would
have done — with `success = false`, an empty partial-file map, and the
`Failed` terminal status. -/
theorem claim_C3_plan_failure (plannerPlan : Option JsonObj)
    (restPhases : EState → Except (List Char × EState) EState)
    (user_request : List Char)
    (h : plannerPlan = none ∨ plannerPlan = some []) :
    (build plannerPlan restPhases user_request).1.success = false ∧
    (build plannerPlan restPhases user_request).1.files = [] ∧
    (build plannerPlan restPhases user_request).2.status = ProjectStatus.failed := by
  rcases h with rfl | rfl
  · exact ⟨rfl, rfl, rfl⟩
  · exact ⟨rfl, rfl, rfl⟩

/-- C3 witness: the theorem applied to a concrete build whose planner output
is unparseable. -/
theorem claim_C3_witness :
    (build none (fun st => Except.ok st) ("req".toList)).1.success = false ∧
    (build none (fun st => Except.ok st) ("req".toList)).1.files = [] ∧
    (build none (fun st => Except.ok st) ("req".toList)).2.status =
      ProjectStatus.failed :=
  claim_C3_plan_failure none (fun st => Except.ok st) ("req".toList) (Or.inl rfl)

theorem emitE_files (st : EState) (t i : List Char) :
    (emitE st t i).files = st.files := rfl

theorem emitE_iterations (st : EState) (t i : List Char) :
    (emitE st t i).iterations = st.iterations := rfl

theorem emitE_max_iterations (st : EState) (t i : List Char) :
    (emitE st t i).max_iterations = st.max_iterations := rfl

theorem emitE_messages (st : EState) (t i : List Char) :
    (emitE st t i).messages = st.messages ++ [⟨t, i⟩] := rfl

theorem newTypes_append (base : List EEvent) (tail : List EEvent)
    (st : EState) (h : st.messages = base ++ tail) :
    newTypes st base.length = tail.map (fun e => e.etype) := by
  unfold newTypes
  rw [h, List.drop_left]

theorem DebugGoOutcome_compose (st st1 : EState) (pre : List EEvent)
    (r : Except (List Char × EState) (EState × Bool))
    (hmax : st1.max_iterations = st.max_iterations)
    (hmsg : st1.messages = st.messages ++ pre)
    (hexh : kDebugExhausted ∉ pre.map (fun e => e.etype))
    (hsucc : kDebugSuccess ∉ pre.map (fun e => e.etype))
    (hout : DebugGoOutcome st1 r) : DebugGoOutcome st r := by
  obtain ⟨⟨hm, hi⟩, hpfx, hne, hiff⟩ := hout
  obtain ⟨tail, htail⟩ := hpfx
  have hmall : (goState r).messages = st.messages ++ (pre ++ tail) := by
    rw [← htail, hmsg, List.append_assoc]
  have hdrop1 : newTypes (goState r) st.messages.length =
      pre.map (fun e => e.etype) ++ tail.map (fun e => e.etype) := by
    rw [newTypes_append st.messages (pre ++ tail) _ hmall, List.map_append]
  have hdrop2 : newTypes (goState r) st1.messages.length =
      tail.map (fun e => e.etype) :=
    newTypes_append st1.messages tail _ htail.symm
  refine ⟨⟨hm.trans hmax, hmax ▸ hi⟩, ⟨pre ++ tail, hmall.symm⟩, ?_, ?_⟩
  · rw [hdrop1]
    simp only [List.mem_append]
    rintro (h1 | h2)
    · exact hexh h1
    · exact hne (by rw [hdrop2]; exact h2)
  · rw [hdrop1]
    rw [hdrop2] at hiff
    simp only [List.mem_append]
    constructor
    · rintro (h1 | h2)
      · exact absurd h1 hsucc
      · exact hiff.1 h2
    · intro hb
      exact Or.inr (hiff.2 hb)

theorem DebugGoOutcome_compose2 (st st1 : EState)
    (r : Except (List Char × EState) (EState × Bool))
    (hmax : st1.max_iterations = st.max_iterations)
    (hpfx : st.messages <+: st1.messages)
    (hexh : kDebugExhausted ∉ newTypes st1 st.messages.length)
    (hsucc : kDebugSuccess ∉ newTypes st1 st.messages.length)
    (hout : DebugGoOutcome st1 r) : DebugGoOutcome st r := by
  obtain ⟨pre, hpre⟩ := hpfx
  have hmsg : st1.messages = st.messages ++ pre := hpre.symm
  have hpe := newTypes_append st.messages pre st1 hmsg
  exact DebugGoOutcome_compose st st1 pre r hmax hmsg
    (by rw [← hpe]; exact hexh) (by rw [← hpe]; exact hsucc) hout

theorem debugLoopGo_outcome (o : DebugOracles) (wd : List (List Char)) :
    ∀ (fuel : Nat) (st : EState) (error : List Char),
      st.iterations ≤ st.max_iterations →
      DebugGoOutcome st (debugLoopGo o wd fuel st error) := by
  intro fuel
  induction fuel with
  | zero =>
    intro st error h
    exact ⟨⟨rfl, h⟩, List.prefix_refl _, by simp [newTypes, debugLoopGo, goState],
      by simp [newTypes, debugLoopGo, goState, goSucceeded]⟩
  | succ fuel ih =>
    intro st error h
    by_cases hg : st.max_iterations ≤ st.iterations
    · simp only [debugLoopGo, if_pos hg]
      exact ⟨⟨rfl, h⟩, List.prefix_refl _, by simp [newTypes, goState],
        by simp [newTypes, goState, goSucceeded]⟩
    · have hlt : st.iterations < st.max_iterations := Nat.lt_of_not_le hg
      have hit1 : st.iterations + 1 ≤ st.max_iterations := hlt
      simp only [debugLoopGo, if_neg hg]
      split
      · -- _extract_json produced nothing: debug_failed, then the loop breaks
        refine ⟨⟨rfl, hit1⟩, ?_, ?_, ?_⟩ <;>
          simp only [goState, goSucceeded, emitE, newTypes, List.append_assoc,
            List.drop_left, List.map_cons, List.map_nil, List.cons_append,
            List.nil_append, List.singleton_append] <;>
          first
            | exact ⟨_, rfl⟩
            | decide
      · -- a fix object was parsed; `if not fix` also catches an empty dict
        split
        · -- empty object: debug_failed, break
          refine ⟨⟨rfl, hit1⟩, ?_, ?_, ?_⟩ <;>
            simp only [goState, goSucceeded, emitE, newTypes, List.append_assoc,
              List.drop_left, List.map_cons, List.map_nil, List.cons_append,
              List.nil_append, List.singleton_append] <;>
            first
              | exact ⟨_, rfl⟩
              | decide
        · split
          · -- need_more_info: debug_question, break
            refine ⟨⟨rfl, hit1⟩, ?_, ?_, ?_⟩ <;>
              simp only [goState, goSucceeded, emitE, newTypes, List.append_assoc,
                List.drop_left, List.map_cons, List.map_nil, List.cons_append,
                List.nil_append, List.singleton_append] <;>
              first
                | exact ⟨_, rfl⟩
                | decide
          · split
            · -- truthy file_path together with a "fix" key
              split
              · -- fix["fix"] is an object
                split
                · -- truthy new_code
                  split
                  · -- string file path and code: apply the fix
                    split
                    · -- the application raised (non-string old_code)
                      refine ⟨⟨rfl, hit1⟩, ?_, ?_, ?_⟩ <;>
                        simp only [goState, goSucceeded, emitE, newTypes, List.append_assoc,
                          List.drop_left, List.map_cons, List.map_nil, List.cons_append,
                          List.nil_append, List.singleton_append] <;>
                        first
                          | exact ⟨_, rfl⟩
                          | decide
                    · -- files updated, fix_applied emitted
                      split
                      · -- the updated map has no such file: KeyError escape
                        refine ⟨⟨rfl, hit1⟩, ?_, ?_, ?_⟩ <;>
                          simp only [goState, goSucceeded, emitE, newTypes, List.append_assoc,
                            List.drop_left, List.map_cons, List.map_nil, List.cons_append,
                            List.nil_append, List.singleton_append] <;>
                          first
                            | exact ⟨_, rfl⟩
                            | decide
                      · split
                        · -- sandbox write validation raised: escape
                          refine ⟨⟨rfl, hit1⟩, ?_, ?_, ?_⟩ <;>
                            simp only [goState, goSucceeded, emitE, newTypes, List.append_assoc,
                              List.drop_left, List.map_cons, List.map_nil, List.cons_append,
                              List.nil_append, List.singleton_append] <;>
                            first
                              | exact ⟨_, rfl⟩
                              | decide
                        · split
                          · -- re-run succeeded: debug_success, return
                            refine ⟨⟨rfl, hit1⟩, ?_, ?_, ?_⟩ <;>
                              simp only [goState, goSucceeded, emitE, newTypes, List.append_assoc,
                                List.drop_left, List.map_cons, List.map_nil, List.cons_append,
                                List.nil_append, List.singleton_append] <;>
                              first
                                | exact ⟨_, rfl⟩
                                | decide
                          · -- re-run failed: iterate with the new stderr
                            refine DebugGoOutcome_compose2 st _ _ ?_ ?_ ?_ ?_
                              (ih _ _ hit1)
                            · rfl
                            · simp only [emitE, List.append_assoc]
                              exact List.prefix_append _ _
                            · simp only [newTypes, emitE, List.append_assoc,
                                List.drop_left, List.map_cons, List.map_nil,
                                List.cons_append, List.nil_append,
                                List.singleton_append]
                              decide
                            · simp only [newTypes, emitE, List.append_assoc,
                                List.drop_left, List.map_cons, List.map_nil,
                                List.cons_append, List.nil_append,
                                List.singleton_append]
                              decide
                  · -- non-string path or code: TypeError escape
                    refine ⟨⟨rfl, hit1⟩, ?_, ?_, ?_⟩ <;>
                      simp only [goState, goSucceeded, emitE, newTypes, List.append_assoc,
                        List.drop_left, List.map_cons, List.map_nil, List.cons_append,
                        List.nil_append, List.singleton_append] <;>
                      first
                        | exact ⟨_, rfl⟩
                        | decide
                · -- falsy new_code: nothing applied, iterate with the same error
                  refine DebugGoOutcome_compose2 st _ _ ?_ ?_ ?_ ?_
                    (ih _ _ hit1)
                  · rfl
                  · simp only [emitE]
                    exact List.prefix_append _ _
                  · simp only [newTypes, emitE, List.drop_left, List.map_cons,
                      List.map_nil]
                    decide
                  · simp only [newTypes, emitE, List.drop_left, List.map_cons,
                      List.map_nil]
                    decide
              · -- fix["fix"] is not an object: AttributeError escape
                refine ⟨⟨rfl, hit1⟩, ?_, ?_, ?_⟩ <;>
                  simp only [goState, goSucceeded, emitE, newTypes, List.append_assoc,
                    List.drop_left, List.map_cons, List.map_nil, List.cons_append,
                    List.nil_append, List.singleton_append] <;>
                  first
                    | exact ⟨_, rfl⟩
                    | decide
            · -- no actionable fix: debug_failed, break
              refine ⟨⟨rfl, hit1⟩, ?_, ?_, ?_⟩ <;>
                simp only [goState, goSucceeded, emitE, newTypes, List.append_assoc,
                  List.drop_left, List.map_cons, List.map_nil, List.cons_append,
                  List.nil_append, List.singleton_append] <;>
                first
                  | exact ⟨_, rfl⟩
                  | decide

/-- C5 (amended): starting at or below the ceiling, the debug loop never
pushes the iteration counter above `max_iterations`; `debug_exhausted` and
`debug_success` are distinct event types; on a normally terminating run the
events this call appends contain `debug_exhausted` exactly when they do not
contain `debug_success`; a run aborted by an escaping exception (e.g. a
sandbox `ValueError` while applying a fix) appends neither.  (The original
claim asserted the exhausted event for every non-success end of the loop,
which the escape path violates.) -/
theorem claim_C5_debug_loop (o : DebugOracles) (wd : List (List Char))
    (st : EState) (error : List Char)
    (h : st.iterations ≤ st.max_iterations) :
    (outState (debug_loop o wd st error)).iterations ≤ st.max_iterations ∧
    ¬ (kDebugExhausted = kDebugSuccess) ∧
    st.messages <+: (outState (debug_loop o wd st error)).messages ∧
    ((debug_loop o wd st error).isOk = true →
      ((kDebugExhausted ∈
          newTypes (outState (debug_loop o wd st error)) st.messages.length) ↔
       (kDebugSuccess ∉
          newTypes (outState (debug_loop o wd st error)) st.messages.length))) ∧
    ((debug_loop o wd st error).isOk = false →
      (kDebugExhausted ∉
          newTypes (outState (debug_loop o wd st error)) st.messages.length ∧
       kDebugSuccess ∉
          newTypes (outState (debug_loop o wd st error)) st.messages.length)) := by
  have hout := debugLoopGo_outcome o wd
    (st.max_iterations - st.iterations)
    { st with status := ProjectStatus.debugging } error h
  unfold debug_loop
  dsimp only
  cases hr : debugLoopGo o wd (st.max_iterations - st.iterations)
      { st with status := ProjectStatus.debugging } error with
  | error p =>
    obtain ⟨e, stE⟩ := p
    rw [hr] at hout
    obtain ⟨⟨hm, hi⟩, hpfx, hne, hiff⟩ := hout
    refine ⟨hi, by decide, hpfx, ?_, fun _ => ⟨hne, ?_⟩⟩
    · intro hc
      simp [Except.isOk, Except.toBool] at hc
    · intro hmm
      simpa [goSucceeded] using hiff.1 hmm
  | ok p =>
    obtain ⟨st2, b⟩ := p
    rw [hr] at hout
    obtain ⟨⟨hm, hi⟩, hpfx, hne, hiff⟩ := hout
    cases b with
    | true =>
      simp only [if_true]
      refine ⟨hi, by decide, hpfx, ?_, ?_⟩
      · intro _
        have hsin : kDebugSuccess ∈ newTypes st2 st.messages.length :=
          hiff.2 rfl
        exact ⟨fun hc => absurd hc hne, fun hc => absurd hsin hc⟩
      · intro hc
        simp [Except.isOk, Except.toBool] at hc
    | false =>
      simp only [Bool.false_eq_true, if_false]
      obtain ⟨pre, hpre⟩ := hpfx
      have hpre2 : st.messages ++ pre = st2.messages := hpre
      have hsnotin : kDebugSuccess ∉ newTypes st2 st.messages.length := by
        intro hc
        simpa [goSucceeded] using hiff.1 hc
      have hNT2 : newTypes st2 st.messages.length =
          pre.map (fun e => e.etype) :=
        newTypes_append st.messages pre st2 hpre2.symm
      have hmsgF : (emitE st2 kDebugExhausted
          (("Could not fix after ".toList) ++ (Nat.repr st2.iterations).toList ++
           (" attempts".toList))).messages =
          st.messages ++ (pre ++ [⟨kDebugExhausted,
            ("Could not fix after ".toList) ++ (Nat.repr st2.iterations).toList ++
            (" attempts".toList)⟩]) := by
        simp only [emitE]
        rw [← hpre2, List.append_assoc]
      have hNTF : newTypes (emitE st2 kDebugExhausted
          (("Could not fix after ".toList) ++ (Nat.repr st2.iterations).toList ++
           (" attempts".toList))) st.messages.length =
          pre.map (fun e => e.etype) ++ [kDebugExhausted] := by
        rw [newTypes_append st.messages _ _ hmsgF, List.map_append]
        simp
      refine ⟨by simpa [outState, emitE] using hi, by decide,
        ⟨pre ++ [_], by simp [outState]; exact hmsgF.symm⟩, ?_, ?_⟩
      · intro _
        constructor
        · intro _
          simp only [outState, hNTF, List.mem_append]
          rintro (hs | hs)
          · exact hsnotin (hNT2 ▸ hs)
          · simp at hs
            exact absurd hs.symm (by decide)
        · intro _
          simp only [outState, hNTF, List.mem_append]
          exact Or.inr (by simp)
      · intro hc
        simp [Except.isOk, Except.toBool] at hc

/-- C5 counterexample: a debugger fix targeting `../x.py` makes the sandbox
write raise `ValueError`, which escapes the loop: the run ends without a
successful fix yet no `debug_exhausted` (and no `debug_success`) event is
emitted. -/
theorem claim_C5_counterexample :
    (debug_loop oTraversal wdDemo stDemo ("boom".toList)).isOk = false ∧
    outErrMsg (debug_loop oTraversal wdDemo stDemo ("boom".toList)) =
      ("Path traversal not allowed".toList) ∧
    kDebugExhausted ∉
      msgTypes (outState (debug_loop oTraversal wdDemo stDemo ("boom".toList))) ∧
    kDebugSuccess ∉
      msgTypes (outState (debug_loop oTraversal wdDemo stDemo ("boom".toList))) := by
  refine ⟨?_, ?_, ?_, ?_⟩ <;> decide

/-- C5 witness: the amended theorem applied to a concrete state and oracle. -/
theorem claim_C5_witness :
    (outState (debug_loop oUnparseable wdDemo stDemo ("boom".toList))).iterations ≤
      stDemo.max_iterations :=
  (claim_C5_debug_loop oUnparseable wdDemo stDemo ("boom".toList) (by decide)).1

theorem countOccsF_pos (sub : List Char) (hsub : ¬ (sub = [])) :
    ∀ (fuel : Nat) (s : List Char), s.length ≤ fuel → sub <:+: s →
      1 ≤ countOccsF sub fuel s := by
  intro fuel
  induction fuel with
  | zero =>
    intro s hlen hinf
    have hs : s = [] := List.eq_nil_of_length_eq_zero (Nat.le_zero.1 hlen)
    subst hs
    exact absurd (List.infix_nil.1 hinf) hsub
  | succ fuel ih =>
    intro s hlen hinf
    cases s with
    | nil => exact absurd (List.infix_nil.1 hinf) hsub
    | cons c rest =>
      by_cases hp : sub <+: (c :: rest)
      · simp [countOccsF, hsub, hp]
      · have hinf2 : sub <:+: rest := by
          obtain ⟨s0, t0, h0⟩ := hinf
          cases s0 with
          | nil => exact absurd ⟨t0, by simpa using h0⟩ hp
          | cons x s0 =>
            refine ⟨s0, t0, ?_⟩
            have h0b : x :: (s0 ++ sub ++ t0) = c :: rest := by simpa using h0
            injection h0b
        have hlen2 : rest.length ≤ fuel := by
          simpa [Nat.succ_le_succ_iff] using hlen
        calc 1 ≤ countOccsF sub fuel rest := ih rest hlen2 hinf2
        _ = countOccsF sub (fuel + 1) (c :: rest) := by
              simp [countOccsF, hp]

theorem countOccs_pos (sub s : List Char) (hsub : ¬ (sub = []))
    (h : sub <:+: s) : 1 ≤ countOccs sub s :=
  countOccsF_pos sub hsub s.length s (Nat.le_refl _) h

theorem is_approved_override (t : List Char)
    (h1 : sApproved <:+: pyLower t)
    (h3 : countOccs sNotApproved (pyLower t) = 0) :
    is_approved t = true := by
  unfold is_approved
  by_cases hfirst : ((approval_signals.any fun s => containsSub s (pyLower t)) &&
      !(rejection_signals.any fun s => containsSub s (pyLower t))) = true
  · simp [hfirst]
  · have hcount : countOccs sNotApproved (pyLower t) <
        countOccs sApproved (pyLower t) := by
      rw [h3]
      exact countOccs_pos _ _ (by decide) h1
    simp [hfirst, containsSub, h1, hcount]

theorem DialogueRound.length_add (d : DialogueRound) (a c r : List Char) :
    (d.add a c r).entries.length = d.entries.length + 1 := by
  simp [DialogueRound.add]

theorem DialogueRound.topic_add (d : DialogueRound) (a c r : List Char) :
    (d.add a c r).topic = d.topic := rfl

theorem codeReviewLoop_approved_first (ag : ReviewAgents) (k : Nat)
    (d : DialogueRound) (evs : List DEvent)
    (hlen : d.entries.length = 1) (hmax : d.max_exchanges = (k + 1) * 2)
    (happ : is_approved (ag.reviewerThink review_prompt
      (some (d.get_context sReviewer))) = true) :
    codeReviewLoop ag (k + 1) (k + 1) 0 d evs =
      (d.add sReviewer (ag.reviewerThink review_prompt
         (some (d.get_context sReviewer))) sCodeReviewer,
       (evs ++ [DEvent.dialogue_exchange 1 sCoder sReviewer]) ++
         [DEvent.dialogue_resolved d.topic ("approved".toList) 1]) := by
  have hal : d.at_limit = false := by
    simp only [DialogueRound.at_limit, DialogueRound.exchange_count, hlen, hmax]
    simp
    omega
  simp only [codeReviewLoop, hal, Bool.false_eq_true, if_false, happ, if_true]
  simp [DialogueRound.topic_add]

/-- C1 (corrected): a reviewer response containing both `approved` and `bug`
(and no occurrence of `not approved`) makes `_is_approved` return TRUE — the
standalone-APPROVED count override fires because `approved` occurs more often
than `not approved` — so the code-review round DOES converge on that turn
(`dialogue_resolved` at round 1, no revision turn).  The original claim
asserted the conservative non-convergent outcome. -/
theorem claim_C1_approved_and_bug :
    (∀ t : List Char,
      sApproved <:+: pyLower t → sBug <:+: pyLower t →
      countOccs sNotApproved (pyLower t) = 0 →
      is_approved t = true) ∧
    (∀ (ag : ReviewAgents) (task : List Char) (m : Nat), 1 ≤ m →
      (∀ p c, sApproved <:+: pyLower (ag.reviewerThink p c) ∧
              sBug <:+: pyLower (ag.reviewerThink p c) ∧
              countOccs sNotApproved (pyLower (ag.reviewerThink p c)) = 0) →
      DEvent.dialogue_resolved (sCodeReviewTopic ++ task.take 100)
          ("approved".toList) 1 ∈ (run_code_review_dialogue ag task m).2.1 ∧
      (run_code_review_dialogue ag task m).1.exchange_count = 2) := by
  constructor
  · intro t h1 _ h3
    exact is_approved_override t h1 h3
  · intro ag task m hm hag
    obtain ⟨k, rfl⟩ : ∃ k, m = k + 1 :=
      ⟨m - 1, (Nat.succ_pred_eq_of_pos hm).symm⟩
    unfold run_code_review_dialogue
    dsimp only
    have happ : is_approved (ag.reviewerThink review_prompt
        (some ((({ topic := sCodeReviewTopic ++ task.take 100, entries := [], max_exchanges := (k + 1) * 2 } : DialogueRound).add sCoder (ag.coderThink task none) sDeveloper).get_context sReviewer))) = true := by
      obtain ⟨ha, _, hc⟩ := hag review_prompt
        (some ((({ topic := sCodeReviewTopic ++ task.take 100, entries := [], max_exchanges := (k + 1) * 2 } : DialogueRound).add sCoder (ag.coderThink task none) sDeveloper).get_context sReviewer))
      exact is_approved_override _ ha hc
    rw [codeReviewLoop_approved_first ag k _ _ (by simp [DialogueRound.add])
      rfl happ]
    constructor
    · simp [DialogueRound.topic_add]
    · simp [DialogueRound.exchange_count, DialogueRound.length_add,
        DialogueRound.add]

/-- C1 counterexample: a concrete response with both markers and no
`not approved` on which `_is_approved` returns true, where the claim says it
returns false. -/
theorem claim_C1_counterexample :
    sApproved <:+: pyLower ("Approved. One bug note: none blocking.".toList) ∧
    sBug <:+: pyLower ("Approved. One bug note: none blocking.".toList) ∧
    countOccs sNotApproved
      (pyLower ("Approved. One bug note: none blocking.".toList)) = 0 ∧
    is_approved ("Approved. One bug note: none blocking.".toList) = true := by
  refine ⟨?_, ?_, ?_, ?_⟩ <;> decide

/-- C1 witness: the amended theorem applied to a concrete agent pair whose
reviewer names both markers. -/
theorem claim_C1_witness :
    DEvent.dialogue_resolved (sCodeReviewTopic ++ ("t".toList).take 100)
        ("approved".toList) 1 ∈
      (run_code_review_dialogue cxAgents ("t".toList) 2).2.1 :=
  (claim_C1_approved_and_bug.2 cxAgents ("t".toList) 2 (by decide)
    (fun p c =>
      ⟨(by decide : sApproved <:+: pyLower
          ("Approved. One bug note: none blocking.".toList)),
       (by decide : sBug <:+: pyLower
          ("Approved. One bug note: none blocking.".toList)),
       (by decide : countOccs sNotApproved (pyLower
          ("Approved. One bug note: none blocking.".toList)) = 0)⟩)).1

theorem countAgent_add (d : DialogueRound) (a c r agent : List Char) :
    countAgent (d.add a c r) agent =
      countAgent d agent + (if a = agent then 1 else 0) := by
  simp only [countAgent, DialogueRound.add, List.filter_append,
    List.length_append]
  split <;> simp_all

theorem codeReviewLoop_len (ag : ReviewAgents) (m : Nat) :
    ∀ (fuel rn : Nat) (d : DialogueRound) (evs : List DEvent),
      (codeReviewLoop ag m fuel rn d evs).1.entries.length ≤
        d.entries.length + 2 * fuel := by
  intro fuel
  induction fuel with
  | zero => intro rn d evs; simp [codeReviewLoop]
  | succ fuel ih =>
    intro rn d evs
    simp only [codeReviewLoop]
    split
    · simp
    · split
      · simp only [DialogueRound.length_add]
        omega
      · split
        · refine le_trans (ih (rn + 1) _ _) ?_
          simp only [DialogueRound.length_add]
          omega
        · refine le_trans (ih (rn + 1) _ _) ?_
          simp only [DialogueRound.length_add]
          omega

theorem codeReviewLoop_len_tight (ag : ReviewAgents) (m : Nat) :
    ∀ (fuel rn : Nat) (d : DialogueRound) (evs : List DEvent),
      1 ≤ fuel → rn + fuel = m →
      (codeReviewLoop ag m fuel rn d evs).1.entries.length + 1 ≤
        d.entries.length + 2 * fuel := by
  intro fuel
  induction fuel with
  | zero => intro rn d evs h0; exact absurd h0 (by decide)
  | succ fuel ih =>
    intro rn d evs _ hsum
    simp only [codeReviewLoop]
    split
    · dsimp only
      omega
    · split
      · simp only [DialogueRound.length_add]
        omega
      · split
        · have hk : 1 ≤ fuel := by
            rename_i hcond
            omega
          refine le_trans (ih (rn + 1) _ _ hk (by omega)) ?_
          simp only [DialogueRound.length_add]
          omega
        · have hk : fuel = 0 := by
            rename_i hcond
            omega
          subst hk
          simp only [codeReviewLoop, DialogueRound.length_add]
          omega

theorem codeReviewLoop_reviewer_count (ag : ReviewAgents) (m : Nat) :
    ∀ (fuel rn : Nat) (d : DialogueRound) (evs : List DEvent),
      countAgent (codeReviewLoop ag m fuel rn d evs).1 sReviewer ≤
        countAgent d sReviewer + fuel := by
  intro fuel
  induction fuel with
  | zero => intro rn d evs; simp [codeReviewLoop]
  | succ fuel ih =>
    intro rn d evs
    simp only [codeReviewLoop]
    split
    · dsimp only
      omega
    · split
      · dsimp only
        simp only [countAgent_add]
        split <;> omega
      · split
        · refine le_trans (ih (rn + 1) _ _) ?_
          simp only [countAgent_add]
          have hcr : ¬ (sCoder = sReviewer) := by decide
          simp only [if_true, if_neg hcr]
          omega
        · refine le_trans (ih (rn + 1) _ _) ?_
          simp only [countAgent_add, if_true]
          omega

theorem testDebugLoop_len (ag : TestAgents) (m : Nat) :
    ∀ (fuel rn : Nat) (d : DialogueRound) (tr : List Char)
      (evs : List DEvent),
      (testDebugLoop ag m fuel rn d tr evs).1.entries.length ≤
        d.entries.length + 2 * fuel := by
  intro fuel
  induction fuel with
  | zero => intro rn d tr evs; simp [testDebugLoop]
  | succ fuel ih =>
    intro rn d tr evs
    simp only [testDebugLoop]
    split
    · simp
    · split
      · simp
      · split
        · refine le_trans (ih (rn + 1) _ _ _) ?_
          simp only [DialogueRound.length_add]
          omega
        · refine le_trans (ih (rn + 1) _ _ _) ?_
          simp only [DialogueRound.length_add]
          omega

theorem testDebugLoop_len_tight (ag : TestAgents) (m : Nat) :
    ∀ (fuel rn : Nat) (d : DialogueRound) (tr : List Char)
      (evs : List DEvent),
      1 ≤ fuel → rn + fuel = m →
      (testDebugLoop ag m fuel rn d tr evs).1.entries.length + 1 ≤
        d.entries.length + 2 * fuel := by
  intro fuel
  induction fuel with
  | zero => intro rn d tr evs h0; exact absurd h0 (by decide)
  | succ fuel ih =>
    intro rn d tr evs _ hsum
    simp only [testDebugLoop]
    split
    · dsimp only
      omega
    · split
      · dsimp only
        omega
      · split
        · have hk : 1 ≤ fuel := by
            rename_i hcond
            omega
          refine le_trans (ih (rn + 1) _ _ _ hk (by omega)) ?_
          simp only [DialogueRound.length_add]
          omega
        · have hk : fuel = 0 := by
            rename_i hcond
            omega
          subst hk
          simp only [testDebugLoop, DialogueRound.length_add]
          omega

theorem testDebugLoop_debugger_count (ag : TestAgents) (m : Nat) :
    ∀ (fuel rn : Nat) (d : DialogueRound) (tr : List Char)
      (evs : List DEvent),
      countAgent (testDebugLoop ag m fuel rn d tr evs).1 sDebugger ≤
        countAgent d sDebugger + fuel := by
  intro fuel
  induction fuel with
  | zero => intro rn d tr evs; simp [testDebugLoop]
  | succ fuel ih =>
    intro rn d tr evs
    simp only [testDebugLoop]
    split
    · dsimp only
      omega
    · split
      · dsimp only
        omega
      · split
        · refine le_trans (ih (rn + 1) _ _ _) ?_
          simp only [countAgent_add]
          have hcr : ¬ (sTester = sDebugger) := by decide
          simp only [if_true, if_neg hcr]
          omega
        · refine le_trans (ih (rn + 1) _ _ _) ?_
          simp only [countAgent_add, if_true]
          omega

/-- C4: for every run of either dialogue shape with a positive round bound
(all call sites pass `max_rounds = 2`), the number of critique turns
(reviewer entries, debugger entries) never exceeds `max_rounds` and the final
`exchange_count` never exceeds `2 × max_rounds`. -/
theorem claim_C4_dialogue_bounds (rag : ReviewAgents) (tag : TestAgents)
    (task : List Char) (m : Nat) (hm : 1 ≤ m) :
    countAgent (run_code_review_dialogue rag task m).1 sReviewer ≤ m ∧
    (run_code_review_dialogue rag task m).1.exchange_count ≤ 2 * m ∧
    countAgent (run_test_debug_dialogue tag task m).1 sDebugger ≤ m ∧
    (run_test_debug_dialogue tag task m).1.exchange_count ≤ 2 * m := by
  refine ⟨?_, ?_, ?_, ?_⟩
  · unfold run_code_review_dialogue
    dsimp only
    rcases hsplit : codeReviewLoop rag m m 0
      (({ topic := sCodeReviewTopic ++ task.take 100, entries := [], max_exchanges := m * 2 } : DialogueRound).add sCoder (rag.coderThink task none) sDeveloper)
      [DEvent.dialogue_start (sCodeReviewTopic ++ task.take 100)
        [sCoder, sReviewer]] with ⟨dRes, evsRes⟩
    have := codeReviewLoop_reviewer_count rag m m 0
      (({ topic := sCodeReviewTopic ++ task.take 100, entries := [], max_exchanges := m * 2 } : DialogueRound).add sCoder (rag.coderThink task none) sDeveloper)
      [DEvent.dialogue_start (sCodeReviewTopic ++ task.take 100)
        [sCoder, sReviewer]]
    rw [hsplit] at this
    simp only [hsplit]
    simp only [countAgent_add] at this
    have hcr : ¬ (sCoder = sReviewer) := by decide
    simp only [if_neg hcr, countAgent] at this ⊢
    simpa using this
  · unfold run_code_review_dialogue
    dsimp only
    rcases hsplit : codeReviewLoop rag m m 0
      (({ topic := sCodeReviewTopic ++ task.take 100, entries := [], max_exchanges := m * 2 } : DialogueRound).add sCoder (rag.coderThink task none) sDeveloper)
      [DEvent.dialogue_start (sCodeReviewTopic ++ task.take 100)
        [sCoder, sReviewer]] with ⟨dRes, evsRes⟩
    have := codeReviewLoop_len_tight rag m m 0
      (({ topic := sCodeReviewTopic ++ task.take 100, entries := [], max_exchanges := m * 2 } : DialogueRound).add sCoder (rag.coderThink task none) sDeveloper)
      [DEvent.dialogue_start (sCodeReviewTopic ++ task.take 100)
        [sCoder, sReviewer]] hm (by omega)
    rw [hsplit] at this
    simp only [hsplit, DialogueRound.length_add] at this ⊢
    simp only [DialogueRound.exchange_count]
    simp at this
    omega
  · unfold run_test_debug_dialogue
    dsimp only
    rcases hsplit : testDebugLoop tag m m 0
      (({ topic := sTestDebugTopic ++ task.take 100, entries := [], max_exchanges := m * 2 } : DialogueRound).add sTester (tag.testerThink task none) sQAEngineer)
      (tag.testerThink task none)
      [DEvent.dialogue_start (sTestDebugTopic ++ task.take 100)
        [sTester, sDebugger]] with ⟨dRes, evsRes⟩
    have := testDebugLoop_debugger_count tag m m 0
      (({ topic := sTestDebugTopic ++ task.take 100, entries := [], max_exchanges := m * 2 } : DialogueRound).add sTester (tag.testerThink task none) sQAEngineer)
      (tag.testerThink task none)
      [DEvent.dialogue_start (sTestDebugTopic ++ task.take 100)
        [sTester, sDebugger]]
    rw [hsplit] at this
    simp only [hsplit]
    simp only [countAgent_add] at this
    have hcr : ¬ (sTester = sDebugger) := by decide
    simp only [if_neg hcr, countAgent] at this ⊢
    simpa using this
  · unfold run_test_debug_dialogue
    dsimp only
    rcases hsplit : testDebugLoop tag m m 0
      (({ topic := sTestDebugTopic ++ task.take 100, entries := [], max_exchanges := m * 2 } : DialogueRound).add sTester (tag.testerThink task none) sQAEngineer)
      (tag.testerThink task none)
      [DEvent.dialogue_start (sTestDebugTopic ++ task.take 100)
        [sTester, sDebugger]] with ⟨dRes, evsRes⟩
    have := testDebugLoop_len_tight tag m m 0
      (({ topic := sTestDebugTopic ++ task.take 100, entries := [], max_exchanges := m * 2 } : DialogueRound).add sTester (tag.testerThink task none) sQAEngineer)
      (tag.testerThink task none)
      [DEvent.dialogue_start (sTestDebugTopic ++ task.take 100)
        [sTester, sDebugger]] hm (by omega)
    rw [hsplit] at this
    simp only [hsplit, DialogueRound.length_add] at this ⊢
    simp only [DialogueRound.exchange_count]
    simp at this
    omega

/-- C4 witness: the bounds at the call sites' `max_rounds = 2`. -/
theorem claim_C4_witness :
    countAgent (run_code_review_dialogue cxAgents ("t".toList) 2).1
      sReviewer ≤ 2 ∧
    (run_code_review_dialogue cxAgents ("t".toList) 2).1.exchange_count ≤
      2 * 2 ∧
    countAgent (run_test_debug_dialogue zeroFailedAgents ("t".toList) 2).1
      sDebugger ≤ 2 ∧
    (run_test_debug_dialogue zeroFailedAgents ("t".toList) 2).1.exchange_count ≤
      2 * 2 :=
  claim_C4_dialogue_bounds cxAgents zeroFailedAgents ("t".toList) 2 (by decide)

theorem tests_passed_false_of_fail_marker (t : List Char)
    (h : sFail <:+: pyLower t ∨ ("error".toList) <:+: pyLower t ∨
         ("traceback".toList) <:+: pyLower t ∨
         ("assertion".toList) <:+: pyLower t) :
    tests_passed t = false := by
  unfold tests_passed
  have hfail : (fail_signals.any fun s => containsSub s (pyLower t)) = true := by
    rcases h with h | h | h | h
    · exact List.any_eq_true.2 ⟨sFail, by decide, by simpa [containsSub] using h⟩
    · exact List.any_eq_true.2 ⟨("error".toList), by decide,
        by simpa [containsSub] using h⟩
    · exact List.any_eq_true.2 ⟨("traceback".toList), by decide,
        by simpa [containsSub] using h⟩
    · exact List.any_eq_true.2 ⟨("assertion".toList), by decide,
        by simpa [containsSub] using h⟩
  simp [hfail]

theorem testDebugLoop_no_resolved (ag : TestAgents) (m : Nat)
    (hag : ∀ p c, tests_passed (ag.testerThink p c) = false) :
    ∀ (fuel rn : Nat) (d : DialogueRound) (tr : List Char)
      (evs : List DEvent),
      tests_passed tr = false →
      (∀ e ∈ evs, isResolvedEv e = false) →
      ∀ e ∈ (testDebugLoop ag m fuel rn d tr evs).2, isResolvedEv e = false := by
  intro fuel
  induction fuel with
  | zero =>
    intro rn d tr evs htr hevs
    simpa [testDebugLoop] using hevs
  | succ fuel ih =>
    intro rn d tr evs htr hevs
    simp only [testDebugLoop]
    split
    · exact hevs
    · rw [htr]
      simp only [Bool.false_eq_true, if_false]
      split
      · refine ih (rn + 1) _ _ _ (hag _ _) ?_
        intro e he
        rcases List.mem_append.1 he with he2 | he2
        · rcases List.mem_append.1 he2 with he3 | he3
          · exact hevs e he3
          · simp at he3
            simp [he3, isResolvedEv]
        · simp at he2
          simp [he2, isResolvedEv]
      · refine ih (rn + 1) _ _ _ htr ?_
        intro e he
        rcases List.mem_append.1 he with he2 | he2
        · exact hevs e he2
        · simp at he2
          simp [he2, isResolvedEv]

/-- C10: every test response whose lowercase form contains a failure marker
(`fail`, `error`, `traceback`, `assertion`) makes `_tests_passed` false; in
particular the pass signals `0 failed` and `no failures` themselves contain
`fail`, so a response consisting solely of either never converges the
test-debug dialogue (no `dialogue_resolved` event is ever emitted). -/
theorem claim_C10_fail_substring :
    (∀ t : List Char,
      (sFail <:+: pyLower t ∨ ("error".toList) <:+: pyLower t ∨
       ("traceback".toList) <:+: pyLower t ∨
       ("assertion".toList) <:+: pyLower t) →
      tests_passed t = false) ∧
    tests_passed ("0 failed".toList) = false ∧
    tests_passed ("no failures".toList) = false ∧
    (∀ (ag : TestAgents) (task : List Char) (m : Nat),
      (∀ p c, sFail <:+: pyLower (ag.testerThink p c)) →
      ∀ e ∈ (run_test_debug_dialogue ag task m).2.1,
        isResolvedEv e = false) := by
  refine ⟨tests_passed_false_of_fail_marker, by decide, by decide, ?_⟩
  intro ag task m hag
  unfold run_test_debug_dialogue
  dsimp only
  rcases hsplit : testDebugLoop ag m m 0
    (({ topic := sTestDebugTopic ++ task.take 100, entries := [], max_exchanges := m * 2 } : DialogueRound).add sTester (ag.testerThink task none) sQAEngineer)
    (ag.testerThink task none)
    [DEvent.dialogue_start (sTestDebugTopic ++ task.take 100)
      [sTester, sDebugger]] with ⟨dRes, evsRes⟩
  have hall := testDebugLoop_no_resolved ag m
    (fun p c => tests_passed_false_of_fail_marker _ (Or.inl (hag p c)))
    m 0
    (({ topic := sTestDebugTopic ++ task.take 100, entries := [], max_exchanges := m * 2 } : DialogueRound).add sTester (ag.testerThink task none) sQAEngineer)
    (ag.testerThink task none)
    [DEvent.dialogue_start (sTestDebugTopic ++ task.take 100)
      [sTester, sDebugger]]
    (tests_passed_false_of_fail_marker _ (Or.inl (hag task none)))
    (by intro e he; simp at he; simp [he, isResolvedEv])
  rw [hsplit] at hall
  simp only [hsplit]
  intro e he
  rcases List.mem_append.1 he with he2 | he2
  · exact hall e he2
  · simp at he2
    simp [he2, isResolvedEv]

/-- C10 witness: the theorem applied to `0 failed` and to a tester that
always answers `0 failed`. -/
theorem claim_C10_witness :
    tests_passed ("0 failed".toList) = false ∧
    ((run_test_debug_dialogue zeroFailedAgents ("t".toList) 2).2.1.all
      (fun e => !(isResolvedEv e))) = true := by
  refine ⟨claim_C10_fail_substring.1 ("0 failed".toList)
    (Or.inl (by decide)), ?_⟩
  have h := claim_C10_fail_substring.2.2.2 zeroFailedAgents ("t".toList) 2
    (fun p c => (by decide : sFail <:+: pyLower ("0 failed".toList)))
  exact List.all_eq_true.2 (fun e he => by simp [h e he])

/-- C6 (amended): when one of the 20 most-recently-updated *active* projects
is the first in that recency order whose lowercased name occurs in the
lowercased request, `resolve` returns that project's stored directory and id,
regardless of the active-project argument and before any new-name extraction.
(The original claim promised this for *every* existing active project; the
query is capped at `LIMIT 20`, so an older project is not found.) -/
theorem claim_C6_existing_name_precedence (db : List Project)
    (fs : List (List Char)) (projects_dir msg : List Char)
    (apid : Option Int) (p : Project)
    (h : (list_projects db sActive 20).find?
        (fun q => containsSub (pyLower q.name) (pyLower msg)) = some p) :
    resolve db fs projects_dir msg apid = (p.directory, p.id) := by
  unfold resolve match_existing_project
  dsimp only
  rw [h]

/-- C6 counterexample: with 21 active projects, the message `improve myapp`
names the least-recently-updated one (`myapp`), yet `resolve` falls through
to the scratch directory because `list_projects(limit=20)` never returns it. -/
theorem claim_C6_counterexample :
    pMyapp ∈ db21 ∧ pMyapp.status = sActive ∧
    (pyLower pMyapp.name) <:+: (pyLower msgMyapp) ∧
    ¬ (resolve db21 [] ("/p".toList) msgMyapp none =
        (pMyapp.directory, pMyapp.id)) := by
  refine ⟨?_, ?_, ?_, ?_⟩ <;> decide

/-- C6 witness: the amended theorem applied to a one-project store, with an
unrelated active-project id. -/
theorem claim_C6_witness :
    resolve [pMyapp] [] ("/p".toList) msgMyapp (some 99) =
      (pMyapp.directory, pMyapp.id) :=
  claim_C6_existing_name_precedence [pMyapp] [] ("/p".toList) msgMyapp
    (some 99) pMyapp (by decide)

theorem firstFreeAux_shape (fs : List (List Char)) (base : List Char) :
    ∀ (fuel n : Nat), ∃ k, firstFreeAux fs base fuel n = candidateDir base k := by
  intro fuel
  induction fuel with
  | zero => intro n; exact ⟨n, rfl⟩
  | succ fuel ih =>
    intro n
    simp only [firstFreeAux]
    split
    · exact ih (n + 1)
    · exact ⟨n, rfl⟩

theorem create_project_dir_base_free (fs : List (List Char))
    (projects_dir name : List Char)
    (h : (projects_dir ++ '/' :: name) ∉ fs) :
    create_project_dir fs projects_dir name = projects_dir ++ '/' :: name := by
  unfold create_project_dir
  simp only [firstFreeAux]
  have hc : candidateDir (projects_dir ++ '/' :: name) 0 =
      projects_dir ++ '/' :: name := by simp [candidateDir]
  rw [hc]
  simp [h]

/-- C7: with no existing active project matched in the request, resolving
`Build me a recipe finder` creates a project directory whose last component
is the slug `recipe-finder` — or `recipe-finder-1`, `recipe-finder-2`, … when
earlier variants exist on disk — paired with no project id; in particular the
plain slug is chosen whenever it is free. -/
theorem claim_C7_recipe_finder (db : List Project) (fs : List (List Char))
    (projects_dir : List Char)
    (h : match_existing_project db msgRecipe = none) :
    (∃ n, resolve db fs projects_dir msgRecipe none =
      (candidateDir (projects_dir ++ '/' :: ("recipe-finder".toList)) n,
       none)) ∧
    ((projects_dir ++ '/' :: ("recipe-finder".toList)) ∉ fs →
      resolve db fs projects_dir msgRecipe none =
        (projects_dir ++ '/' :: ("recipe-finder".toList), none)) := by
  have hx : extract_project_name msgRecipe = some ("recipe-finder".toList) := by
    decide
  unfold resolve
  rw [h]
  dsimp only
  rw [hx]
  dsimp only
  constructor
  · obtain ⟨k, hk⟩ := firstFreeAux_shape fs
      (projects_dir ++ '/' :: ("recipe-finder".toList)) (fs.length + 1) 0
    exact ⟨k, by rw [show create_project_dir fs projects_dir
      ("recipe-finder".toList) = firstFreeAux fs
      (projects_dir ++ '/' :: ("recipe-finder".toList)) (fs.length + 1) 0
      from rfl, hk]⟩
  · intro hfree
    rw [create_project_dir_base_free fs projects_dir ("recipe-finder".toList)
      hfree]

/-- C7 witness: the theorem applied to an empty store and an empty
filesystem. -/
theorem claim_C7_witness :
    resolve [] [] ("/p".toList) msgRecipe none =
      (("/p".toList) ++ '/' :: ("recipe-finder".toList), none) :=
  (claim_C7_recipe_finder [] [] ("/p".toList) (by decide)).2 (by decide)

end Vibe
